import Mathlib

/-! Micromouse flood-fill controller (`flood.cpp`)

A shallow embedding of the `FloodFill` node of `flood.cpp` and theorems about it.

Modelling conventions.
* `double` / `float` values are exact rationals (`ℚ`); a decimal literal of the
  source (`0.99`, `0.01`, `0.001`, `0.2`, `M_PI`) is the rational value of the
  double it denotes, which for `0.5` and `0.75` is the decimal itself.
* `int` values are `Int`; every value the program stores is far from the 32-bit
  limits except the literal `INT_MAX = 2^31 - 1`.
* `vector<vector<int>>` is `List (List Int)`; an index outside a vector is
  undefined behaviour in the source and `none` here.
* A callback is a function on the controller state; `move_mouse` also returns
  the commands it hands to the publisher, in order, and whether it called
  `rclcpp::shutdown()`.
-/

namespace Micromouse

/-! ## Data model -/

/-- The drive state `enum class State`. -/
inductive State where
  | MOVING_FORWARD
  | DETECTING_WALL
  | TURNING
  | REFINING_TURN
  deriving DecidableEq, Repr

/-- The two fields of `geometry_msgs::msg::Twist` the program writes; a freshly
built message has both at zero, and the four other fields are never touched. -/
structure Twist where
  linear_x : ℚ
  angular_z : ℚ
  deriving DecidableEq, Repr

/-- The value of `geometry_msgs::msg::Twist()`. -/
def Twist.zero : Twist := ⟨0, 0⟩

/-- The grid `vector<vector<int>> maze_`, indexed `maze_[x][y]`. -/
abbrev Maze := List (List Int)

/-- The member variables of `class FloodFill` (the ROS handles apart). -/
structure FloodFill where
  state_ : State
  maze_ : Maze
  wall_detected_ : Bool
  initial_yaw_ : ℚ
  current_yaw_ : ℚ
  target_yaw_ : ℚ
  current_x_ : ℚ
  current_y_ : ℚ
  distance_traveled_ : ℚ
  deriving DecidableEq, Repr

/-- The member `const int MAZE_SIZE_ = 20`. -/
def MAZE_SIZE_ : Nat := 20

/-- The member `int goal_x_ = 19`. -/
def goal_x_ : Int := 19

/-- The member `int goal_y_ = 19`. -/
def goal_y_ : Int := 19

/-- The constant `INT_MAX` of `<climits>` for a 32-bit `int`. -/
def INT_MAX : Int := 2147483647

/-- The constant `M_PI` of `<cmath>`: the double nearest to pi, which is the
rational `884279719003555 / 2^48`. -/
def M_PI : ℚ := 884279719003555 / 281474976710656

/-! ## Grid access -/

/-- Reading `maze_[x][y]`: `none` when an index is outside its vector. -/
def Maze.cell (m : Maze) (x y : Int) : Option Int :=
  if 0 ≤ x ∧ 0 ≤ y then
    match m[x.toNat]? with
    | some row => row[y.toNat]?
    | none => none
  else none

/-- The assignment `maze_[x][y] = v`: `none` when an index is outside its
vector (an `int` below zero converts to an index past every vector). -/
def Maze.write (m : Maze) (x y : Int) (v : Int) : Option Maze :=
  if 0 ≤ x ∧ 0 ≤ y then
    match m[x.toNat]? with
    | some row =>
      if y.toNat < row.length then some (m.set x.toNat (row.set y.toNat v)) else none
    | none => none
  else none

/-- The call `maze_.resize(n, row)`: keeps the first `n` rows and pads with
copies of `row`. -/
def Maze.resize (m : Maze) (n : Nat) (row : List Int) : Maze :=
  m.take n ++ List.replicate (n - m.length) row

/-! ## `initialize_maze` -/

/-- The inner loop of `initialize_maze` for one `x`: `y` runs over `0 .. 19`. -/
def initialize_row (x : Nat) (m : Maze) : Option Maze :=
  (List.range MAZE_SIZE_).foldlM
    (fun (acc : Maze) (y : Nat) => acc.write x y (|goal_x_ - (x : Int)| + |goal_y_ - (y : Int)|)) m

/-- The function `initialize_maze` on the grid (the printing loop apart). -/
def initialize_maze (m : Maze) : Option Maze :=
  (List.range MAZE_SIZE_).foldlM (fun (acc : Maze) (x : Nat) => initialize_row x acc)
    (m.resize MAZE_SIZE_ (List.replicate MAZE_SIZE_ 0))

/-! ## `normalize_angle` -/

/-- The first loop of `normalize_angle`: `while (angle > M_PI) angle -= 2.0 * M_PI;`. -/
def normalize_angle_sub (angle : ℚ) : ℚ :=
  if M_PI < angle then normalize_angle_sub (angle - 2 * M_PI) else angle
termination_by (⌈(angle - M_PI) / (2 * M_PI)⌉).toNat
decreasing_by
  have hpi : (0 : ℚ) < 2 * M_PI := by norm_num [M_PI]
  have hpos : 0 < (angle - M_PI) / (2 * M_PI) := div_pos (by linarith) hpi
  have hrw : (angle - 2 * M_PI - M_PI) / (2 * M_PI) = (angle - M_PI) / (2 * M_PI) - 1 := by
    field_simp
    ring
  have hceil : 0 < ⌈(angle - M_PI) / (2 * M_PI)⌉ := Int.ceil_pos.mpr hpos
  rw [hrw, Int.ceil_sub_one]
  omega

/-- The second loop of `normalize_angle`: `while (angle < -M_PI) angle += 2.0 * M_PI;`. -/
def normalize_angle_add (angle : ℚ) : ℚ :=
  if angle < -M_PI then normalize_angle_add (angle + 2 * M_PI) else angle
termination_by (⌈(-M_PI - angle) / (2 * M_PI)⌉).toNat
decreasing_by
  have hpi : (0 : ℚ) < 2 * M_PI := by norm_num [M_PI]
  have hpos : 0 < (-M_PI - angle) / (2 * M_PI) := div_pos (by linarith) hpi
  have hrw : (-M_PI - (angle + 2 * M_PI)) / (2 * M_PI) = (-M_PI - angle) / (2 * M_PI) - 1 := by
    field_simp
    ring
  have hceil : 0 < ⌈(-M_PI - angle) / (2 * M_PI)⌉ := Int.ceil_pos.mpr hpos
  rw [hrw, Int.ceil_sub_one]
  omega

/-- The function `normalize_angle`: the two loops in sequence. -/
def normalize_angle (angle : ℚ) : ℚ :=
  normalize_angle_add (normalize_angle_sub angle)

/-! ## Callbacks -/

/-- The field `ranges` of `sensor_msgs::msg::LaserScan`, the only one read. -/
structure LaserScan where
  ranges : List ℚ
  deriving DecidableEq, Repr

/-- An orientation `geometry_msgs::msg::Quaternion`. -/
structure Quaternion where
  x : ℚ
  y : ℚ
  z : ℚ
  w : ℚ
  deriving DecidableEq, Repr

/-- The fields of `nav_msgs::msg::Odometry` that `odom_callback` reads. -/
structure Odometry where
  position_x : ℚ
  position_y : ℚ
  orientation : Quaternion
  deriving DecidableEq, Repr

/-- The library routines `odom_callback` calls, taken as parameters: `sqrt` of
`<cmath>` and the yaw that `tf2::Matrix3x3(q).getRPY` extracts from a quaternion. -/
structure Extern where
  sqrt : ℚ → ℚ
  getYaw : Quaternion → ℚ

/-- The conversion `static_cast<int>(d)`: truncation toward zero, undefined
(`none`) when the truncated value does not fit a 32-bit `int`. -/
def toInt (d : ℚ) : Option Int :=
  let t : Int := Int.tdiv d.num (d.den : Int)
  if -INT_MAX - 1 ≤ t ∧ t ≤ INT_MAX then some t else none

/-- One conditional wall write of `laser_callback`:
`if (msg->ranges[i] < safe_distance) maze_[x][y] = INT_MAX;`. -/
def mark_if_close (m : Maze) (ranges : List ℚ) (i : Nat) (x y : Int) : Option Maze :=
  match ranges[i]? with
  | none => none
  | some r =>
    let safe_distance : ℚ := 3 / 4
    if r < safe_distance then m.write x y INT_MAX else some m

/-- The callback `laser_callback`. -/
def laser_callback (s : FloodFill) (msg : LaserScan) : Option FloodFill :=
  if s.state_ = State.DETECTING_WALL then
    match toInt s.current_x_, toInt s.current_y_ with
    | some x, some y =>
      match mark_if_close s.maze_ msg.ranges 0 x (y + 1) with
      | none => none
      | some m1 =>
        match mark_if_close m1 msg.ranges 1 (x - 1) y with
        | none => none
        | some m2 =>
          match mark_if_close m2 msg.ranges 3 (x + 1) y with
          | none => none
          | some m3 => some { s with maze_ := m3, state_ := State.MOVING_FORWARD }
    | _, _ => none
  else some s

/-- The callback `odom_callback` (the two log lines apart). -/
def odom_callback (E : Extern) (s : FloodFill) (msg : Odometry) : FloodFill :=
  let yaw := E.getYaw msg.orientation
  let new_x := msg.position_x
  let new_y := msg.position_y
  { s with
    current_yaw_ := yaw
    distance_traveled_ :=
      s.distance_traveled_ + E.sqrt ((new_x - s.current_x_) ^ 2 + (new_y - s.current_y_) ^ 2)
    current_x_ := new_x
    current_y_ := new_y }

/-- The function `flood_fill`: its whole body is `state_ = State::TURNING;`. -/
def flood_fill (s : FloodFill) : FloodFill :=
  { s with state_ := State.TURNING }

/-- What one run of `move_mouse` produces: the next controller state, the
messages passed to `publisher_->publish` in order, and whether
`rclcpp::shutdown()` was called (after logging "Goal reached!"). -/
structure Tick where
  next : FloodFill
  published : List Twist
  shutdown : Bool
  deriving DecidableEq, Repr

/-- The double literal `0.99`: the double nearest to 99/100, which lies
below it. -/
def double_0_99 : ℚ := 4458563631096791 / 4503599627370496

/-- The double literal `0.01`: the double nearest to 1/100, which lies above it. -/
def double_0_01 : ℚ := 5764607523034235 / 576460752303423488

/-- The double literal `0.001`: the double nearest to 1/1000, which lies
above it. -/
def double_0_001 : ℚ := 1152921504606847 / 1152921504606846976

/-- The double literal `0.2`: the double nearest to 2/10, which lies above it. -/
def double_0_2 : ℚ := 3602879701896397 / 18014398509481984

/-- The condition of the goal check at the top of `move_mouse`. -/
def at_goal (s : FloodFill) : Bool :=
  decide (((goal_x_ : ℚ) - 1 / 2 ≤ s.current_x_ ∧ s.current_x_ ≤ (goal_x_ : ℚ) + 1 / 2) ∧
    ((goal_y_ : ℚ) - 1 / 2 ≤ s.current_y_ ∧ s.current_y_ ≤ (goal_y_ : ℚ) + 1 / 2))

/-- The timer callback `move_mouse`. The goal branch publishes and calls
`rclcpp::shutdown()`, which returns to the caller, so the `switch` and the
final `publish` run in the same call. -/
def move_mouse (s : FloodFill) : Tick :=
  let twist : Twist := Twist.zero
  let goal : Bool := at_goal s
  let sent : List Twist :=
    if goal then [{ twist with linear_x := 0, angular_z := 0 }] else []
  match s.state_ with
  | State.MOVING_FORWARD =>
    if s.distance_traveled_ < double_0_99 then
      let twist : Twist := { twist with linear_x := 1 / 2, angular_z := 0 }
      ⟨s, sent ++ [twist], goal⟩
    else
      let twist : Twist := { twist with linear_x := 0 }
      let stop_twist : Twist := { Twist.zero with linear_x := 0, angular_z := 0 }
      ⟨{ s with state_ := State.DETECTING_WALL }, sent ++ [stop_twist] ++ [twist], goal⟩
  | State.TURNING =>
    let angle_difference := normalize_angle (s.target_yaw_ - s.current_yaw_)
    let tolerance : ℚ := double_0_01
    if |angle_difference| > tolerance then
      let twist : Twist :=
        { twist with angular_z := 1 * (if angle_difference > 0 then 1 else -1), linear_x := 0 }
      ⟨s, sent ++ [twist], goal⟩
    else
      let twist : Twist := { twist with angular_z := 0 }
      ⟨{ s with state_ := State.REFINING_TURN }, sent ++ [twist], goal⟩
  | State.REFINING_TURN =>
    let angle_difference := normalize_angle (s.target_yaw_ - s.current_yaw_)
    let fine_tolerance : ℚ := double_0_001
    if |angle_difference| > fine_tolerance then
      let twist : Twist :=
        { twist with
          angular_z := double_0_2 * (if angle_difference > 0 then 1 else -1)
          linear_x := 0 }
      ⟨s, sent ++ [twist], goal⟩
    else
      let twist : Twist := { twist with angular_z := 0 }
      ⟨{ s with state_ := State.MOVING_FORWARD, distance_traveled_ := 0 }, sent ++ [twist], goal⟩
  | State.DETECTING_WALL =>
    ⟨flood_fill s, sent ++ [twist], goal⟩

/-! ## The constructor and the reachable states -/

/-- The state the constructor `FloodFill()` leaves: the member initialisers,
then `initialize_maze()` on the empty `maze_`. The members the constructor
does not initialise (`wall_detected_`, `current_yaw_`, `current_x_`,
`current_y_`) hold indeterminate values, given here as arguments. -/
def construct (wall_detected : Bool) (current_yaw current_x current_y : ℚ) : Option FloodFill :=
  match initialize_maze [] with
  | none => none
  | some m =>
    some
      { state_ := State.MOVING_FORWARD
        maze_ := m
        wall_detected_ := wall_detected
        initial_yaw_ := 0
        current_yaw_ := current_yaw
        target_yaw_ := 0
        current_x_ := current_x
        current_y_ := current_y
        distance_traveled_ := 0 }

/-- One operation of the controller: a laser callback whose writes are all
inside the grid, an odometry callback, or a timer tick. -/
inductive Step (E : Extern) : FloodFill → FloodFill → Prop where
  | laser (s t : FloodFill) (msg : LaserScan) : laser_callback s msg = some t → Step E s t
  | odom (s : FloodFill) (msg : Odometry) : Step E s (odom_callback E s msg)
  | tick (s : FloodFill) : Step E s (move_mouse s).next

/-- The states the spinning node can be in between two callbacks: the state
after construction, and the state after any callback run from such a state;
after a tick that calls `rclcpp::shutdown()` no further callback runs. -/
inductive Reachable (E : Extern) : FloodFill → Prop where
  | init (b : Bool) (yaw x y : ℚ) (s : FloodFill) :
      construct b yaw x y = some s → Reachable E s
  | laser (s t : FloodFill) (msg : LaserScan) :
      Reachable E s → laser_callback s msg = some t → Reachable E t
  | odom (s : FloodFill) (msg : Odometry) :
      Reachable E s → Reachable E (odom_callback E s msg)
  | tick (s : FloodFill) :
      Reachable E s → (move_mouse s).shutdown = false → Reachable E (move_mouse s).next

/-- The maze states met after `initialize_maze` and any number of
`laser_callback` runs (from any pose and drive state) on that maze. -/
inductive WallsInserted : Maze → Prop where
  | seed (m : Maze) : initialize_maze [] = some m → WallsInserted m
  | laser (s t : FloodFill) (msg : LaserScan) :
      WallsInserted s.maze_ → laser_callback s msg = some t → WallsInserted t.maze_

/-! ## Properties of a distance field, as the specification words them -/

/-- The cell `c` lies inside the 20x20 grid. -/
def in_grid (c : Int × Int) : Bool :=
  decide (0 ≤ c.1 ∧ c.1 < (MAZE_SIZE_ : Int) ∧ 0 ≤ c.2 ∧ c.2 < (MAZE_SIZE_ : Int))

/-- The cells `c` and `d` are 4-neighbours: they differ by one in exactly one
coordinate. -/
def adjacent (c d : Int × Int) : Bool :=
  decide ((c.1 = d.1 ∧ (c.2 = d.2 + 1 ∨ d.2 = c.2 + 1)) ∨
    (c.2 = d.2 ∧ (c.1 = d.1 + 1 ∨ d.1 = c.1 + 1)))

/-- The cells `c, rest[0], rest[1], ...` form a path to the goal `(19, 19)`:
consecutive cells are 4-neighbours inside the grid and the last one is the
goal. The path has `rest.length` steps. -/
def walk_to_goal : Int × Int → List (Int × Int) → Bool
  | c, [] => c == (goal_x_, goal_y_)
  | c, d :: rest => adjacent c d && in_grid d && walk_to_goal d rest

/-- The grid direction a cardinal yaw points in: 0 is `+x`, `pi/2` is `+y`,
`pi` is `-x`, `-pi/2` is `-y`; no direction for any other yaw. -/
def yaw_offset (yaw : ℚ) : Option (Int × Int) :=
  if yaw = 0 then some (1, 0)
  else if yaw = M_PI / 2 then some (0, 1)
  else if yaw = M_PI then some (-1, 0)
  else if yaw = -M_PI / 2 then some (0, -1)
  else none

/-- The cell `(x, y)` is outside the grid or holds at least `v`. -/
def at_least (m : Maze) (x y v : Int) : Bool :=
  match m.cell x y with
  | some w => decide (v ≤ w)
  | none => true

/-- The neighbour of `(x, y)` at offset `(dx, dy)` is inside the grid and its
value is the minimum over the in-grid 4-neighbours of `(x, y)`. -/
def min_toward (m : Maze) (x y dx dy : Int) : Bool :=
  match m.cell (x + dx) (y + dy) with
  | some v =>
    at_least m (x + 1) y v && at_least m (x - 1) y v &&
      at_least m x (y + 1) v && at_least m x (y - 1) v
  | none => false

/-- The yaw is cardinal and points from `(x, y)` to an in-grid neighbour of
minimum value. -/
def points_to_min (m : Maze) (x y : Int) (yaw : ℚ) : Bool :=
  match yaw_offset yaw with
  | some d => min_toward m x y d.1 d.2
  | none => false

/-! ## Concrete grids, states and messages used as test inputs -/

/-- The grid of Manhattan distances to `(19, 19)`; it is what `initialize_maze`
builds from the empty grid (`initialize_maze_nil`). -/
def seed_grid : Maze :=
  (List.range 20).map fun (x : Nat) => (List.range 20).map fun (y : Nat) =>
    |19 - (x : Int)| + |19 - (y : Int)|

/-- The constructor's state when the indeterminate pose happens to be `(x, y)`. -/
def fresh (x y : ℚ) : FloodFill :=
  { state_ := State.MOVING_FORWARD
    maze_ := seed_grid
    wall_detected_ := false
    initial_yaw_ := 0
    current_yaw_ := 0
    target_yaw_ := 0
    current_x_ := x
    current_y_ := y
    distance_traveled_ := 0 }

/-- A state on the seeded grid at pose `(x, y)` in drive state `st`, having
travelled `d` since the last reset. -/
def on_seed (st : State) (x y d : ℚ) : FloodFill :=
  { fresh x y with state_ := st, distance_traveled_ := d }

/-- A scan whose front reading alone is below the threshold. -/
def front_close : LaserScan := ⟨[1 / 2, 1, 1, 1]⟩

/-- A scan whose left reading alone is below the threshold. -/
def left_close : LaserScan := ⟨[1, 1 / 2, 1, 1]⟩

/-- The seeded grid with the sentinel written at the listed cells. -/
def walled (cells : List (Int × Int)) : Maze :=
  (List.range 20).map fun (x : Nat) => (List.range 20).map fun (y : Nat) =>
    if ((x : Int), (y : Int)) ∈ cells then INT_MAX else |19 - (x : Int)| + |19 - (y : Int)|

/-- Library routines exact on the inputs of the test runs: `Rat.sqrt` is the
exact square root of a rational square, and the yaw of the identity
quaternion is `0`. -/
def exact_extern : Extern := ⟨Rat.sqrt, fun _ => 0⟩

/-- An odometry sample at `(x, y)` with the identity orientation. -/
def odom_at (x y : ℚ) : Odometry := ⟨x, y, ⟨0, 0, 0, 1⟩⟩

/-- The state `laser_callback` leaves at pose `(x, y)` once the cells `cells`
of the seeded grid hold the sentinel: back in `MOVING_FORWARD`, having
travelled `d`. -/
def after_walls (cells : List (Int × Int)) (x y d : ℚ) : FloodFill :=
  { on_seed State.MOVING_FORWARD x y d with maze_ := walled cells }

/-- Every cell of `m` holds what `initialize_maze` stored there or the wall
sentinel, and `m` has the cells of the 20x20 grid and no others. -/
def seeded_or_wall (m : Maze) : Prop :=
  ∀ a b : Int, m.cell a b = seed_grid.cell a b ∨
    (m.cell a b = some INT_MAX ∧ ∃ w, seed_grid.cell a b = some w)

/-- The commands the goal check of `move_mouse` has published before the
`switch` runs: the zero command inside the goal box, nothing outside it. -/
def goal_sent (s : FloodFill) : List Twist :=
  if at_goal s then [⟨0, 0⟩] else []

/-- A turning state (drive state `st`) on the seeded grid at pose `(3, 4)`
whose heading is `yaw`, with target heading 0, having travelled `d`. -/
def heading (st : State) (yaw d : ℚ) : FloodFill :=
  { on_seed st 3 4 d with current_yaw_ := yaw }

/-! ## Grid lemmas -/

theorem initialize_maze_nil : initialize_maze [] = some seed_grid := by decide

theorem seed_grid_cell (x y : Int) :
    seed_grid.cell x y =
      if 0 ≤ x ∧ x < 20 ∧ 0 ≤ y ∧ y < 20 then some (|19 - x| + |19 - y|) else none := by
  unfold Maze.cell seed_grid
  by_cases hx : 0 ≤ x
  · by_cases hy : 0 ≤ y
    · by_cases hx2 : x < 20
      · by_cases hy2 : y < 20
        · have h1 : x.toNat < 20 := by omega
          have h2 : y.toNat < 20 := by omega
          have h3 : ((x.toNat : Nat) : Int) = x := by omega
          have h4 : ((y.toNat : Nat) : Int) = y := by omega
          simp [hx, hy, hx2, hy2, List.getElem?_map, List.getElem?_range, h1, h2, h3, h4]
        · have h1 : x.toNat < 20 := by omega
          have h2 : ¬ y.toNat < 20 := by omega
          simp [hx, hy, hx2, hy2, List.getElem?_map, List.getElem?_range, h1]
          omega
      · have h1 : (List.range 20)[x.toNat]? = none :=
          List.getElem?_eq_none (by simp only [List.length_range]; omega)
        simp [hx, hy, hx2, List.getElem?_map, h1]
    · simp [hy]
  · simp [hx]

theorem Maze.cell_write {m t : Maze} {x y v : Int} (h : m.write x y v = some t) (a b : Int) :
    t.cell a b = if a = x ∧ b = y then some v else m.cell a b := by
  unfold Maze.write at h
  split at h
  · rename_i hxy
    split at h
    · rename_i row hrow
      split at h
      · rename_i hy
        simp only [Option.some.injEq] at h
        subst h
        unfold Maze.cell
        by_cases hab : 0 ≤ a ∧ 0 ≤ b
        · simp only [hab, and_self, if_true]
          have hx : x.toNat < m.length := by
            by_contra hc
            rw [List.getElem?_eq_none (by omega)] at hrow
            exact absurd hrow (by simp)
          by_cases hax : a = x
          · subst hax
            simp only [List.getElem?_set, hx, if_true, true_and]
            by_cases hby : b = y
            · subst hby
              simp [hy]
            · have : ¬ (y.toNat = b.toNat) := by omega
              simp [hby, this, hrow]
          · have : ¬ (x.toNat = a.toNat) := by omega
            simp [hax, this, List.getElem?_set]
        · have : ¬ (a = x ∧ b = y) := by
            rintro ⟨rfl, rfl⟩
            exact hab hxy
          simp [hab, this]
      · exact absurd h (by simp)
    · exact absurd h (by simp)
  · exact absurd h (by simp)

/-- A write that succeeds hits an existing cell. -/
theorem Maze.write_target {m t : Maze} {x y v : Int} (h : m.write x y v = some t) :
    ∃ w, m.cell x y = some w := by
  unfold Maze.write at h
  unfold Maze.cell
  split at h
  · rename_i hxy
    split at h
    · rename_i row hrow
      split at h
      · rename_i hy
        refine ⟨row[y.toNat], ?_⟩
        simp [hxy, hrow, List.getElem?_eq_getElem hy]
      · exact absurd h (by simp)
    · exact absurd h (by simp)
  · exact absurd h (by simp)

/-! ## `normalize_angle` lemmas -/

theorem M_PI_pos : (0 : ℚ) < M_PI := by norm_num [M_PI]

/-! ## The double literals -/

theorem double_0_99_pos : (0 : ℚ) < double_0_99 := by norm_num [double_0_99]

theorem double_0_99_lt_one : ¬ (1 : ℚ) < double_0_99 := by norm_num [double_0_99]

theorem double_0_01_pos : (0 : ℚ) < double_0_01 := by norm_num [double_0_01]

theorem double_0_001_pos : (0 : ℚ) < double_0_001 := by norm_num [double_0_001]

/-- The double literals differ from the decimals they are written as. -/
theorem double_literals_inexact :
    double_0_99 < 99 / 100 ∧ 1 / 100 < double_0_01 ∧ 1 / 1000 < double_0_001 ∧
      2 / 10 < double_0_2 := by
  norm_num [double_0_99, double_0_01, double_0_001, double_0_2]

theorem normalize_angle_sub_le (a : ℚ) : normalize_angle_sub a ≤ M_PI := by
  induction a using normalize_angle_sub.induct with
  | case1 a h ih =>
    rw [normalize_angle_sub, if_pos h]
    exact ih
  | case2 a h =>
    rw [normalize_angle_sub, if_neg h]
    exact not_lt.mp h

theorem normalize_angle_add_bounds (a : ℚ) :
    -M_PI ≤ normalize_angle_add a ∧ (a ≤ M_PI → normalize_angle_add a ≤ M_PI) := by
  induction a using normalize_angle_add.induct with
  | case1 a h ih =>
    rw [normalize_angle_add, if_pos h]
    refine ⟨ih.1, fun _ => ih.2 ?_⟩
    have := M_PI_pos
    linarith
  | case2 a h =>
    rw [normalize_angle_add, if_neg h]
    exact ⟨not_lt.mp h, fun h2 => h2⟩

theorem normalize_angle_bounds (a : ℚ) :
    -M_PI ≤ normalize_angle a ∧ normalize_angle a ≤ M_PI :=
  ⟨(normalize_angle_add_bounds _).1,
    (normalize_angle_add_bounds _).2 (normalize_angle_sub_le a)⟩

theorem normalize_angle_fixed {a : ℚ} (h1 : -M_PI ≤ a) (h2 : a ≤ M_PI) :
    normalize_angle a = a := by
  unfold normalize_angle
  rw [normalize_angle_sub, if_neg (not_lt.mpr h2), normalize_angle_add, if_neg (not_lt.mpr h1)]

/-! ## Claims -/

/-- C1, evaluated on the code. On the first tick of the freshly constructed
controller with pose `(19, 19)`, inside the goal box, `move_mouse` calls
shutdown and publishes the zero command, and then still runs the
`MOVING_FORWARD` case and publishes the forward command `linear = 0.5`; from
`DETECTING_WALL` at the same pose the tick also changes the drive state,
to `TURNING`. -/
theorem move_mouse_goal_falls_through :
    construct false 0 19 19 = some (fresh 19 19) ∧
      at_goal (fresh 19 19) = true ∧
      (move_mouse (fresh 19 19)).shutdown = true ∧
      (move_mouse (fresh 19 19)).published = [⟨0, 0⟩, ⟨1 / 2, 0⟩] ∧
      at_goal (on_seed State.DETECTING_WALL 19 19 1) = true ∧
      (move_mouse (on_seed State.DETECTING_WALL 19 19 1)).next.state_ = State.TURNING := by
  refine ⟨?_, ?_, ?_, ?_, ?_, ?_⟩
  · simp [construct, initialize_maze_nil, fresh]
  · simp [at_goal, fresh, goal_x_, goal_y_]
  · simp [move_mouse, at_goal, fresh, goal_x_, goal_y_, double_0_99_pos]
  · simp [move_mouse, at_goal, fresh, goal_x_, goal_y_, Twist.zero, double_0_99_pos]
  · simp [at_goal, fresh, on_seed, goal_x_, goal_y_]
  · simp [move_mouse, on_seed, fresh, flood_fill]

/-- C2, as stated, fails: the tick that ends a cell (state `MOVING_FORWARD`,
`distance_traveled = 1`, pose `(0, 1)` far from the goal) publishes two
commands, the explicit stop command and then the tick's own command. -/
theorem move_mouse_publishes_twice :
    at_goal (on_seed State.MOVING_FORWARD 0 1 1) = false ∧
      (move_mouse (on_seed State.MOVING_FORWARD 0 1 1)).published = [⟨0, 0⟩, ⟨0, 0⟩] ∧
      (move_mouse (on_seed State.MOVING_FORWARD 0 1 1)).published.length ≠ 1 := by
  refine ⟨?_, ?_, ?_⟩
  · simp [at_goal, fresh, on_seed, goal_x_, goal_y_]; norm_num
  · simp [move_mouse, at_goal, fresh, on_seed, goal_x_, goal_y_, Twist.zero, double_0_99_lt_one]; norm_num
  · simp [move_mouse, at_goal, fresh, on_seed, goal_x_, goal_y_, Twist.zero, double_0_99_lt_one]

/-- C2, amended. Away from the goal box one tick publishes exactly one command,
except the tick that ends a cell (`MOVING_FORWARD` with
`distance_traveled >= 0.99`, the source's double literal), which publishes
exactly two: the stop command and the tick's command, both zero. -/
theorem move_mouse_publish_count (s : FloodFill) (hgoal : at_goal s = false) :
    (s.state_ = State.MOVING_FORWARD ∧ ¬ s.distance_traveled_ < double_0_99 →
        (move_mouse s).published = [⟨0, 0⟩, ⟨0, 0⟩]) ∧
      (¬ (s.state_ = State.MOVING_FORWARD ∧ ¬ s.distance_traveled_ < double_0_99) →
        (move_mouse s).published.length = 1) := by
  constructor
  · rintro ⟨h1, h2⟩
    simp [move_mouse, hgoal, h1, h2, Twist.zero]
  · intro h
    unfold move_mouse
    cases hs : s.state_ with
    | MOVING_FORWARD =>
      have h2 : s.distance_traveled_ < double_0_99 := by
        by_contra hc
        exact h ⟨hs, hc⟩
      simp [hgoal, h2]
    | DETECTING_WALL => simp [hgoal]
    | TURNING =>
      simp only [hgoal]
      split <;> simp
    | REFINING_TURN =>
      simp only [hgoal]
      split <;> simp

theorem move_mouse_publish_count_witness :
    at_goal (on_seed State.TURNING 3 4 0) = false ∧
      (move_mouse (on_seed State.TURNING 3 4 0)).published.length = 1 :=
  ⟨by simp [at_goal, fresh, on_seed, goal_x_, goal_y_]; norm_num,
    (move_mouse_publish_count (on_seed State.TURNING 3 4 0)
      (by simp [at_goal, fresh, on_seed, goal_x_, goal_y_]; norm_num)).2
      (by simp [on_seed])⟩

/-- C3. Run on the empty grid the constructor starts with, `initialize_maze`
returns a grid of 20 rows of 20 cells in which every cell `(x, y)` holds
`|19 - x| + |19 - y|`; the goal cell `(19, 19)` holds 0. -/
theorem initialize_maze_manhattan :
    ∃ m : Maze, initialize_maze [] = some m ∧
      m.map List.length = List.replicate 20 20 ∧
      (∀ x y : Fin 20,
        m.cell (x : Nat) (y : Nat) = some (|19 - ((x : Nat) : Int)| + |19 - ((y : Nat) : Int)|)) ∧
      m.cell 19 19 = some 0 := by
  refine ⟨seed_grid, initialize_maze_nil, by decide, ?_, by decide⟩
  intro x y
  rw [seed_grid_cell]
  have hx := x.isLt
  have hy := y.isLt
  rw [if_pos (by omega)]

/-- C7, as stated, fails at the lower end: the input `-M_PI` is returned
unchanged, so the result is not strictly above `-pi`. -/
theorem normalize_angle_neg_pi :
    normalize_angle (-M_PI) = -M_PI ∧ ¬ (-M_PI < normalize_angle (-M_PI)) := by
  have h : normalize_angle (-M_PI) = -M_PI :=
    normalize_angle_fixed le_rfl (by have := M_PI_pos; linarith)
  exact ⟨h, by rw [h]; exact lt_irrefl _⟩

/-- C7, amended. For every input angle `normalize_angle` returns (it is a total
function) a result in the closed interval `[-pi, pi]`. -/
theorem normalize_angle_range (angle : ℚ) :
    -M_PI ≤ normalize_angle angle ∧ normalize_angle angle ≤ M_PI :=
  normalize_angle_bounds angle

/-- C8. `normalize_angle` is idempotent. -/
theorem normalize_angle_idempotent (angle : ℚ) :
    normalize_angle (normalize_angle angle) = normalize_angle angle :=
  normalize_angle_fixed (normalize_angle_bounds angle).1 (normalize_angle_bounds angle).2

/-! ## Lemmas on `laser_callback` -/

theorem mark_if_close_some {m t : Maze} {rs : List ℚ} {i : Nat} {x y : Int}
    (h : mark_if_close m rs i x y = some t) :
    ∃ r, rs[i]? = some r ∧
      ((r < 3 / 4 ∧ m.write x y INT_MAX = some t) ∨ (¬ r < 3 / 4 ∧ t = m)) := by
  unfold mark_if_close at h
  split at h
  · exact absurd h (by simp)
  · rename_i r hr
    refine ⟨r, hr, ?_⟩
    by_cases hlt : r < 3 / 4
    · left
      simp only [hlt, if_true] at h
      exact ⟨hlt, h⟩
    · right
      simp only [hlt, if_false, Option.some.injEq] at h
      exact ⟨hlt, h.symm⟩

/-- A conditional wall write changes no cell but its target, which it may set
to the sentinel. -/
theorem mark_if_close_cell {m t : Maze} {rs : List ℚ} {i : Nat} {x y : Int}
    (h : mark_if_close m rs i x y = some t) (a b : Int) :
    t.cell a b = m.cell a b ∨
      (a = x ∧ b = y ∧ t.cell a b = some INT_MAX ∧ ∃ w, m.cell a b = some w) := by
  obtain ⟨r, _, hcase | hcase⟩ := mark_if_close_some h
  · have hw := Maze.cell_write hcase.2 a b
    by_cases hab : a = x ∧ b = y
    · right
      rw [if_pos hab] at hw
      obtain ⟨w, hw2⟩ := Maze.write_target hcase.2
      exact ⟨hab.1, hab.2, hw, w, by rw [hab.1, hab.2]; exact hw2⟩
    · left
      rw [if_neg hab] at hw
      exact hw
  · left
    rw [hcase.2]

theorem mark_if_close_other {m t : Maze} {rs : List ℚ} {i : Nat} {x y : Int}
    (h : mark_if_close m rs i x y = some t) (a b : Int) (hab : ¬ (a = x ∧ b = y)) :
    t.cell a b = m.cell a b := by
  rcases mark_if_close_cell h a b with h1 | ⟨h1, h2, _⟩
  · exact h1
  · exact absurd ⟨h1, h2⟩ hab

theorem mark_if_close_keeps_wall {m t : Maze} {rs : List ℚ} {i : Nat} {x y : Int}
    (h : mark_if_close m rs i x y = some t) (a b : Int) (hw : m.cell a b = some INT_MAX) :
    t.cell a b = some INT_MAX := by
  rcases mark_if_close_cell h a b with h1 | ⟨_, _, h1, _⟩
  · rw [h1, hw]
  · exact h1

theorem mark_if_close_hit {m t : Maze} {rs : List ℚ} {i : Nat} {x y : Int} {r : ℚ}
    (h : mark_if_close m rs i x y = some t) (hr : rs[i]? = some r) (hlt : r < 3 / 4) :
    t.cell x y = some INT_MAX := by
  obtain ⟨r2, hr2, hcase | hcase⟩ := mark_if_close_some h
  · have hw := Maze.cell_write hcase.2 x y
    rw [if_pos ⟨rfl, rfl⟩] at hw
    exact hw
  · rw [hr] at hr2
    simp only [Option.some.injEq] at hr2
    subst hr2
    exact absurd hlt hcase.1

/-- The shape of a successful `laser_callback` in `DETECTING_WALL`. -/
theorem laser_callback_sensing {s t : FloodFill} {msg : LaserScan}
    (hs : s.state_ = State.DETECTING_WALL) (h : laser_callback s msg = some t) :
    ∃ x y m1 m2 m3, toInt s.current_x_ = some x ∧ toInt s.current_y_ = some y ∧
      mark_if_close s.maze_ msg.ranges 0 x (y + 1) = some m1 ∧
      mark_if_close m1 msg.ranges 1 (x - 1) y = some m2 ∧
      mark_if_close m2 msg.ranges 3 (x + 1) y = some m3 ∧
      t = { s with maze_ := m3, state_ := State.MOVING_FORWARD } := by
  unfold laser_callback at h
  rw [if_pos hs] at h
  split at h
  · rename_i x y hx hy
    split at h
    · exact absurd h (by simp)
    · rename_i m1 h1
      split at h
      · exact absurd h (by simp)
      · rename_i m2 h2
        split at h
        · exact absurd h (by simp)
        · rename_i m3 h3
          simp only [Option.some.injEq] at h
          exact ⟨x, y, m1, m2, m3, hx, hy, h1, h2, h3, h.symm⟩
  · exact absurd h (by simp)

theorem laser_callback_idle {s : FloodFill} (msg : LaserScan)
    (hs : s.state_ ≠ State.DETECTING_WALL) : laser_callback s msg = some s := by
  unfold laser_callback
  rw [if_neg hs]

/-- A `laser_callback` leaves each cell as it was or overwrites it with the sentinel. -/
theorem laser_callback_cell {s t : FloodFill} {msg : LaserScan}
    (h : laser_callback s msg = some t) (a b : Int) :
    t.maze_.cell a b = s.maze_.cell a b ∨
      (t.maze_.cell a b = some INT_MAX ∧ ∃ w, s.maze_.cell a b = some w) := by
  by_cases hs : s.state_ = State.DETECTING_WALL
  · obtain ⟨x, y, m1, m2, m3, _, _, h1, h2, h3, ht⟩ := laser_callback_sensing hs h
    subst ht
    simp only
    have c1 := mark_if_close_cell h1 a b
    have c2 := mark_if_close_cell h2 a b
    have c3 := mark_if_close_cell h3 a b
    have hex : (∃ w, m2.cell a b = some w) → ∃ w, s.maze_.cell a b = some w := by
      rintro ⟨w, hw⟩
      rcases c2 with e2 | ⟨_, _, _, w2, hw2⟩
      · rcases c1 with e1 | ⟨_, _, _, w1, hw1⟩
        · exact ⟨w, by rw [← e1, ← e2]; exact hw⟩
        · exact ⟨w1, hw1⟩
      · rcases c1 with e1 | ⟨_, _, _, w1, hw1⟩
        · exact ⟨w2, by rw [← e1]; exact hw2⟩
        · exact ⟨w1, hw1⟩
    rcases c3 with e3 | ⟨_, _, e3, hw3⟩
    · rcases c2 with e2 | ⟨_, _, e2, w2, hw2⟩
      · rcases c1 with e1 | ⟨_, _, e1, hw1⟩
        · left
          rw [e3, e2, e1]
        · right
          exact ⟨by rw [e3, e2, e1], hw1⟩
      · right
        exact ⟨by rw [e3, e2], hex ⟨INT_MAX, e2⟩⟩
    · right
      exact ⟨e3, hex hw3⟩
  · rw [laser_callback_idle msg hs] at h
    simp only [Option.some.injEq] at h
    subst h
    left
    rfl

/-- The heading is not an input of `laser_callback`: changing `current_yaw_`
before the call only changes `current_yaw_` after it. -/
theorem laser_callback_yaw (s : FloodFill) (msg : LaserScan) (yaw : ℚ) :
    laser_callback { s with current_yaw_ := yaw } msg =
      (laser_callback s msg).map fun t => { t with current_yaw_ := yaw } := by
  unfold laser_callback
  by_cases hs : s.state_ = State.DETECTING_WALL
  · simp only [hs, if_true]
    cases toInt s.current_x_ <;> cases toInt s.current_y_ <;> simp only [Option.map]
    rename_i x y
    cases mark_if_close s.maze_ msg.ranges 0 x (y + 1) <;> simp only
    rename_i m1
    cases mark_if_close m1 msg.ranges 1 (x - 1) y <;> simp only
    rename_i m2
    cases mark_if_close m2 msg.ranges 3 (x + 1) y <;> simp only
  · simp only [hs, if_false, Option.map]

theorem odom_callback_maze (E : Extern) (s : FloodFill) (msg : Odometry) :
    (odom_callback E s msg).maze_ = s.maze_ := rfl

theorem move_mouse_maze (s : FloodFill) : (move_mouse s).next.maze_ = s.maze_ := by
  unfold move_mouse
  cases hs : s.state_ with
  | MOVING_FORWARD => simp only; split <;> rfl
  | DETECTING_WALL => rfl
  | TURNING => simp only; split <;> rfl
  | REFINING_TURN => simp only; split <;> rfl

/-! ## Invariant of the reachable grids -/

theorem seeded_or_wall_laser {s t : FloodFill} {msg : LaserScan}
    (hinv : seeded_or_wall s.maze_) (h : laser_callback s msg = some t) :
    seeded_or_wall t.maze_ := by
  intro a b
  rcases laser_callback_cell h a b with e | ⟨e, w, hw⟩
  · rw [e]
    exact hinv a b
  · right
    refine ⟨e, ?_⟩
    rcases hinv a b with e2 | ⟨_, h2⟩
    · exact ⟨w, by rw [← e2]; exact hw⟩
    · exact h2

theorem construct_maze {b : Bool} {yaw x y : ℚ} {s : FloodFill}
    (h : construct b yaw x y = some s) : s.maze_ = seed_grid := by
  unfold construct at h
  rw [initialize_maze_nil] at h
  simp only [Option.some.injEq] at h
  subst h
  rfl

theorem reachable_seeded_or_wall {E : Extern} {s : FloodFill} (h : Reachable E s) :
    seeded_or_wall s.maze_ := by
  induction h with
  | init b yaw x y s hc =>
    rw [construct_maze hc]
    intro a b
    left
    rfl
  | laser s t msg _ hl ih => exact seeded_or_wall_laser ih hl
  | odom s msg _ ih => exact ih
  | tick s _ _ ih =>
    rw [move_mouse_maze]
    exact ih

theorem wallsInserted_seeded_or_wall {m : Maze} (h : WallsInserted m) : seeded_or_wall m := by
  induction h with
  | seed m hm =>
    rw [initialize_maze_nil] at hm
    simp only [Option.some.injEq] at hm
    subst hm
    intro a b
    left
    rfl
  | laser s t msg _ hl ih => exact seeded_or_wall_laser ih hl

/-- In a grid of seeded values and sentinels no cell exceeds `INT_MAX`. -/
theorem seeded_or_wall_le {m : Maze} (hinv : seeded_or_wall m) {a b v : Int}
    (h : m.cell a b = some v) : v ≤ INT_MAX := by
  rcases hinv a b with e | ⟨e, _⟩
  · rw [h, seed_grid_cell] at e
    split at e
    · rename_i hab
      simp only [Option.some.injEq] at e
      subst e
      have h1 : |19 - a| ≤ 19 := abs_le.mpr ⟨by omega, by omega⟩
      have h2 : |19 - b| ≤ 19 := abs_le.mpr ⟨by omega, by omega⟩
      unfold INT_MAX
      omega
    · exact absurd e (by simp)
  · rw [h] at e
    simp only [Option.some.injEq] at e
    rw [e]

theorem step_cell {E : Extern} {s t : FloodFill} (h : Step E s t) (a b : Int) :
    t.maze_.cell a b = s.maze_.cell a b ∨
      (t.maze_.cell a b = some INT_MAX ∧ ∃ w, s.maze_.cell a b = some w) := by
  cases h
  case laser hl => exact laser_callback_cell hl a b
  case odom => left; rfl
  case tick => left; rw [move_mouse_maze]

/-! ## Test runs -/

theorem reachable_sensing_19_18 :
    Reachable exact_extern (on_seed State.DETECTING_WALL 19 18 1) := by
  have h0 : Reachable exact_extern (fresh 19 17) :=
    Reachable.init false 0 19 17 _ (by simp [construct, initialize_maze_nil, fresh])
  have h1 := Reachable.odom (fresh 19 17) (odom_at 19 18) h0
  have e1 : odom_callback exact_extern (fresh 19 17) (odom_at 19 18) =
      on_seed State.MOVING_FORWARD 19 18 1 := by
    have hs : Rat.sqrt 1 = 1 := by decide
    simp [odom_callback, fresh, on_seed, odom_at, exact_extern]
    norm_num [hs]
  rw [e1] at h1
  have h2 := Reachable.tick _ h1
    (by simp [move_mouse, at_goal, on_seed, fresh, goal_x_, goal_y_, double_0_99_lt_one]; norm_num)
  have e2 : (move_mouse (on_seed State.MOVING_FORWARD 19 18 1)).next =
      on_seed State.DETECTING_WALL 19 18 1 := by
    simp [move_mouse, on_seed, fresh, double_0_99_lt_one]
  rw [e2] at h2
  exact h2

theorem toInt_intCast (n : Int) (h1 : -INT_MAX - 1 ≤ n) (h2 : n ≤ INT_MAX) :
    toInt (n : ℚ) = some n := by
  unfold toInt
  simp [h1, h2]

theorem laser_front_19_18 :
    laser_callback (on_seed State.DETECTING_WALL 19 18 1) front_close =
      some (after_walls [(19, 19)] 19 18 1) := by
  have hx : toInt (19 : ℚ) = some 19 := by decide
  have hy : toInt (18 : ℚ) = some 18 := by decide
  have hw : Maze.write seed_grid 19 19 INT_MAX = some (walled [(19, 19)]) := by decide
  simp [laser_callback, on_seed, fresh, front_close, mark_if_close, hx, hy, after_walls]
  norm_num [hw]

theorem laser_front_5_5 :
    laser_callback (on_seed State.DETECTING_WALL 5 5 1) front_close =
      some (after_walls [(5, 6)] 5 5 1) := by
  have hx : toInt (5 : ℚ) = some 5 := by decide
  have hw : Maze.write seed_grid 5 6 INT_MAX = some (walled [(5, 6)]) := by decide
  simp [laser_callback, on_seed, fresh, front_close, mark_if_close, hx, after_walls]
  norm_num [hw]

/-- C5, as stated, fails. From the constructor's state at pose `(19, 17)`, an
odometry sample at `(19, 18)`, the tick that ends the cell and a scan with the
front reading below the threshold lead to a state whose goal cell `(19, 19)`
holds `INT_MAX`, not 0. -/
theorem goal_cell_walled :
    Reachable exact_extern (after_walls [(19, 19)] 19 18 1) ∧
      (after_walls [(19, 19)] 19 18 1).maze_.cell 19 19 = some INT_MAX ∧
      (after_walls [(19, 19)] 19 18 1).maze_.cell 19 19 ≠ some 0 := by
  refine ⟨?_, by decide, by decide⟩
  exact Reachable.laser _ _ _ reachable_sensing_19_18 laser_front_19_18

/-- C5, amended. In every reachable state the goal cell `(19, 19)` holds 0 or
the wall sentinel; `odom_callback` and `move_mouse` leave the grid unchanged,
and a `laser_callback` leaves the goal cell as it was or writes the sentinel
there. -/
theorem goal_cell_zero_or_wall (E : Extern) (s : FloodFill) (h : Reachable E s) :
    (s.maze_.cell 19 19 = some 0 ∨ s.maze_.cell 19 19 = some INT_MAX) ∧
      (∀ msg : Odometry, (odom_callback E s msg).maze_ = s.maze_) ∧
      (move_mouse s).next.maze_ = s.maze_ ∧
      (∀ (msg : LaserScan) (t : FloodFill), laser_callback s msg = some t →
        t.maze_.cell 19 19 = s.maze_.cell 19 19 ∨ t.maze_.cell 19 19 = some INT_MAX) := by
  refine ⟨?_, fun _ => rfl, move_mouse_maze s, ?_⟩
  · rcases reachable_seeded_or_wall h 19 19 with e | ⟨e, _⟩
    · left
      rw [e]
      decide
    · right
      exact e
  · intro msg t ht
    rcases laser_callback_cell ht 19 19 with e | ⟨e, _⟩
    · exact Or.inl e
    · exact Or.inr e

theorem goal_cell_zero_or_wall_witness :
    Reachable exact_extern (on_seed State.DETECTING_WALL 19 18 1) ∧
      ((on_seed State.DETECTING_WALL 19 18 1).maze_.cell 19 19 = some 0 ∨
        (on_seed State.DETECTING_WALL 19 18 1).maze_.cell 19 19 = some INT_MAX) :=
  ⟨reachable_sensing_19_18,
    (goal_cell_zero_or_wall exact_extern _ reachable_sensing_19_18).1⟩

/-- A conditional wall write that succeeds read a reading, and set its target
to the sentinel exactly when that reading is below the threshold. -/
theorem mark_if_close_exact {m t : Maze} {rs : List ℚ} {i : Nat} {x y : Int}
    (h : mark_if_close m rs i x y = some t) :
    ∃ r, rs[i]? = some r ∧
      ∀ a b, t.cell a b = if a = x ∧ b = y ∧ r < 3 / 4 then some INT_MAX else m.cell a b := by
  obtain ⟨r, hr, hcase | hcase⟩ := mark_if_close_some h
  · refine ⟨r, hr, fun a b => ?_⟩
    rw [Maze.cell_write hcase.2 a b]
    by_cases hab : a = x ∧ b = y
    · rw [if_pos hab, if_pos ⟨hab.1, hab.2, hcase.1⟩]
    · rw [if_neg hab, if_neg (fun k => hab ⟨k.1, k.2.1⟩)]
  · refine ⟨r, hr, fun a b => ?_⟩
    rw [if_neg (fun k => hcase.1 k.2.2), hcase.2]

/-- The cells a successful `laser_callback` marks in `DETECTING_WALL`: the
fixed offsets front `(x, y+1)`, left `(x-1, y)`, right `(x+1, y)` from the
robot cell, each exactly when its reading is below the threshold. -/
theorem laser_callback_offsets {s t : FloodFill} {msg : LaserScan} {x y : Int}
    (hs : s.state_ = State.DETECTING_WALL) (hx : toInt s.current_x_ = some x)
    (hy : toInt s.current_y_ = some y) (h : laser_callback s msg = some t) :
    ∃ r0 r1 r3, msg.ranges[0]? = some r0 ∧ msg.ranges[1]? = some r1 ∧
      msg.ranges[3]? = some r3 ∧
      ∀ a b, t.maze_.cell a b =
        if (a = x ∧ b = y + 1 ∧ r0 < 3 / 4) ∨ (a = x - 1 ∧ b = y ∧ r1 < 3 / 4) ∨
            (a = x + 1 ∧ b = y ∧ r3 < 3 / 4) then some INT_MAX
        else s.maze_.cell a b := by
  obtain ⟨x2, y2, m1, m2, m3, hx2, hy2, h1, h2, h3, ht⟩ := laser_callback_sensing hs h
  rw [hx] at hx2
  rw [hy] at hy2
  simp only [Option.some.injEq] at hx2 hy2
  subst hx2 hy2 ht
  obtain ⟨r0, e0, c1⟩ := mark_if_close_exact h1
  obtain ⟨r1, e1, c2⟩ := mark_if_close_exact h2
  obtain ⟨r3, e3, c3⟩ := mark_if_close_exact h3
  refine ⟨r0, r1, r3, e0, e1, e3, fun a b => ?_⟩
  simp only
  rw [c3, c2, c1]
  by_cases k3 : a = x + 1 ∧ b = y ∧ r3 < 3 / 4
  · rw [if_pos k3, if_pos (Or.inr (Or.inr k3))]
  · rw [if_neg k3]
    by_cases k2 : a = x - 1 ∧ b = y ∧ r1 < 3 / 4
    · rw [if_pos k2, if_pos (Or.inr (Or.inl k2))]
    · rw [if_neg k2]
      by_cases k1 : a = x ∧ b = y + 1 ∧ r0 < 3 / 4
      · rw [if_pos k1, if_pos (Or.inl k1)]
      · rw [if_neg k1, if_neg]
        rintro (k | k | k)
        · exact k1 k
        · exact k2 k
        · exact k3 k

theorem laser_left_5_5 :
    laser_callback (on_seed State.DETECTING_WALL 5 5 1) left_close =
      some (after_walls [(4, 5)] 5 5 1) := by
  have hx : toInt (5 : ℚ) = some 5 := by decide
  have hw : Maze.write seed_grid 4 5 INT_MAX = some (walled [(4, 5)]) := by decide
  simp [laser_callback, on_seed, fresh, left_close, mark_if_close, hx, after_walls]
  norm_num [hw]

/-- C6, as stated, fails. At cell `(5, 5)` with only the left reading below the
threshold, `laser_callback` marks the same cell `(4, 5)` under heading 0 and
under heading `M_PI / 2`; and in general no state, scan and pair of headings
make it produce different grids. -/
theorem laser_callback_ignores_heading :
    (laser_callback { on_seed State.DETECTING_WALL 5 5 1 with current_yaw_ := 0 }
        left_close).map FloodFill.maze_ = some (walled [(4, 5)]) ∧
      (laser_callback { on_seed State.DETECTING_WALL 5 5 1 with current_yaw_ := M_PI / 2 }
        left_close).map FloodFill.maze_ = some (walled [(4, 5)]) ∧
      ¬ ∃ (s : FloodFill) (msg : LaserScan) (yaw1 yaw2 : ℚ),
        (laser_callback { s with current_yaw_ := yaw1 } msg).map FloodFill.maze_ ≠
          (laser_callback { s with current_yaw_ := yaw2 } msg).map FloodFill.maze_ := by
  refine ⟨?_, ?_, ?_⟩
  · rw [laser_callback_yaw, laser_left_5_5]
    rfl
  · rw [laser_callback_yaw, laser_left_5_5]
    rfl
  · rintro ⟨s, msg, yaw1, yaw2, hne⟩
    apply hne
    rw [laser_callback_yaw s msg yaw1, laser_callback_yaw s msg yaw2]
    cases laser_callback s msg <;> rfl

/-- C6, amended. The wall update does not rotate by the heading. Whatever value
`current_yaw_` holds, `laser_callback` gives the result it gives on the state
as it is, with only `current_yaw_` replaced; and when it succeeds in
`DETECTING_WALL` at robot cell `(x, y)`, the cells it marks are those at the
fixed grid offsets: `(x, y+1)` iff the front reading `ranges[0]` is below 0.75,
`(x-1, y)` iff the left reading `ranges[1]` is, `(x+1, y)` iff the right
reading `ranges[3]` is, every other cell keeping its value. -/
theorem laser_callback_heading_free (s : FloodFill) (msg : LaserScan) (yaw : ℚ) :
    laser_callback { s with current_yaw_ := yaw } msg =
        (laser_callback s msg).map (fun t => { t with current_yaw_ := yaw }) ∧
      ∀ (t : FloodFill) (x y : Int), s.state_ = State.DETECTING_WALL →
        toInt s.current_x_ = some x → toInt s.current_y_ = some y →
        laser_callback { s with current_yaw_ := yaw } msg = some t →
        ∃ r0 r1 r3, msg.ranges[0]? = some r0 ∧ msg.ranges[1]? = some r1 ∧
          msg.ranges[3]? = some r3 ∧
          ∀ a b, t.maze_.cell a b =
            if (a = x ∧ b = y + 1 ∧ r0 < 3 / 4) ∨ (a = x - 1 ∧ b = y ∧ r1 < 3 / 4) ∨
                (a = x + 1 ∧ b = y ∧ r3 < 3 / 4) then some INT_MAX
            else s.maze_.cell a b := by
  refine ⟨laser_callback_yaw s msg yaw, ?_⟩
  intro t x y hs hx hy ht
  exact laser_callback_offsets (s := { s with current_yaw_ := yaw }) hs hx hy ht

theorem laser_callback_heading_free_witness :
    laser_callback { on_seed State.DETECTING_WALL 5 5 1 with current_yaw_ := M_PI / 2 }
        left_close =
        some { after_walls [(4, 5)] 5 5 1 with current_yaw_ := M_PI / 2 } ∧
      ∃ r0 r1 r3, left_close.ranges[0]? = some r0 ∧ left_close.ranges[1]? = some r1 ∧
        left_close.ranges[3]? = some r3 ∧
        ∀ a b, ({ after_walls [(4, 5)] 5 5 1 with current_yaw_ := M_PI / 2 } :
            FloodFill).maze_.cell a b =
          if (a = 5 ∧ b = 5 + 1 ∧ r0 < 3 / 4) ∨ (a = 5 - 1 ∧ b = 5 ∧ r1 < 3 / 4) ∨
              (a = 5 + 1 ∧ b = 5 ∧ r3 < 3 / 4) then some INT_MAX
          else (on_seed State.DETECTING_WALL 5 5 1).maze_.cell a b := by
  have hrun : laser_callback
      { on_seed State.DETECTING_WALL 5 5 1 with current_yaw_ := M_PI / 2 } left_close =
      some { after_walls [(4, 5)] 5 5 1 with current_yaw_ := M_PI / 2 } := by
    rw [(laser_callback_heading_free (on_seed State.DETECTING_WALL 5 5 1) left_close
      (M_PI / 2)).1, laser_left_5_5]
    rfl
  exact ⟨hrun,
    (laser_callback_heading_free (on_seed State.DETECTING_WALL 5 5 1) left_close
      (M_PI / 2)).2 _ 5 5 rfl (by decide) (by decide) hrun⟩

/-- C9, as stated, fails. At cell `(5, 5)` a front reading below the threshold
makes `laser_callback` write the sentinel at `(5, 6)`, while the robot's own
cell `(5, 5)` keeps its value 28: entry into `(5, 5)` is not denied. -/
theorem laser_wall_one_sided :
    laser_callback (on_seed State.DETECTING_WALL 5 5 1) front_close =
        some (after_walls [(5, 6)] 5 5 1) ∧
      (after_walls [(5, 6)] 5 5 1).maze_.cell 5 6 = some INT_MAX ∧
      (after_walls [(5, 6)] 5 5 1).maze_.cell 5 5 = some 28 ∧
      (after_walls [(5, 6)] 5 5 1).maze_.cell 5 5 ≠ some INT_MAX :=
  ⟨laser_front_5_5, by decide, by decide, by decide⟩

/-- C9, amended. When `laser_callback` runs in `DETECTING_WALL` at cell
`(x, y)`, each neighbour whose reading is below 0.75 (front `(x, y+1)`, left
`(x-1, y)`, right `(x+1, y)`) holds the wall sentinel afterwards, so entry
into it is denied from every side, and the robot's own cell keeps its value. -/
theorem laser_callback_marks_neighbours (s t : FloodFill) (msg : LaserScan) (x y : Int)
    (hs : s.state_ = State.DETECTING_WALL) (hx : toInt s.current_x_ = some x)
    (hy : toInt s.current_y_ = some y) (h : laser_callback s msg = some t) :
    (∀ r, msg.ranges[0]? = some r → r < 3 / 4 → t.maze_.cell x (y + 1) = some INT_MAX) ∧
      (∀ r, msg.ranges[1]? = some r → r < 3 / 4 → t.maze_.cell (x - 1) y = some INT_MAX) ∧
      (∀ r, msg.ranges[3]? = some r → r < 3 / 4 → t.maze_.cell (x + 1) y = some INT_MAX) ∧
      t.maze_.cell x y = s.maze_.cell x y := by
  obtain ⟨x2, y2, m1, m2, m3, hx2, hy2, h1, h2, h3, ht⟩ := laser_callback_sensing hs h
  rw [hx] at hx2
  rw [hy] at hy2
  simp only [Option.some.injEq] at hx2 hy2
  subst hx2 hy2 ht
  simp only
  refine ⟨?_, ?_, ?_, ?_⟩
  · intro r hr hlt
    exact mark_if_close_keeps_wall h3 _ _
      (mark_if_close_keeps_wall h2 _ _ (mark_if_close_hit h1 hr hlt))
  · intro r hr hlt
    exact mark_if_close_keeps_wall h3 _ _ (mark_if_close_hit h2 hr hlt)
  · intro r hr hlt
    exact mark_if_close_hit h3 hr hlt
  · rw [mark_if_close_other h3 x y (by omega), mark_if_close_other h2 x y (by omega),
      mark_if_close_other h1 x y (by omega)]

theorem laser_callback_marks_neighbours_witness :
    (after_walls [(5, 6)] 5 5 1).maze_.cell 5 (5 + 1) = some INT_MAX ∧
      (after_walls [(5, 6)] 5 5 1).maze_.cell 5 5 =
        (on_seed State.DETECTING_WALL 5 5 1).maze_.cell 5 5 :=
  ⟨(laser_callback_marks_neighbours (on_seed State.DETECTING_WALL 5 5 1)
      (after_walls [(5, 6)] 5 5 1) front_close 5 5 rfl (by decide) (by decide)
      laser_front_5_5).1 (1 / 2) rfl (by norm_num),
    (laser_callback_marks_neighbours (on_seed State.DETECTING_WALL 5 5 1)
      (after_walls [(5, 6)] 5 5 1) front_close 5 5 rfl (by decide) (by decide)
      laser_front_5_5).2.2.2⟩

/-- C10. From every reachable state, every operation (a `laser_callback` with
in-bounds writes, an `odom_callback`, a `move_mouse` tick with its
`flood_fill`) leaves each cell with a value at least its value before, and a
cell holding the wall sentinel still holds it. -/
theorem maze_values_never_decrease (E : Extern) (s t : FloodFill) (hr : Reachable E s)
    (hstep : Step E s t) (x y v : Int) (hv : s.maze_.cell x y = some v) :
    ∃ w, t.maze_.cell x y = some w ∧ v ≤ w ∧ (v = INT_MAX → w = INT_MAX) := by
  rcases step_cell hstep x y with e | ⟨e, _⟩
  · exact ⟨v, by rw [e, hv], le_rfl, fun h => h⟩
  · exact ⟨INT_MAX, e, seeded_or_wall_le (reachable_seeded_or_wall hr) hv, fun _ => rfl⟩

theorem maze_values_never_decrease_witness :
    Reachable exact_extern (on_seed State.DETECTING_WALL 19 18 1) ∧
      Step exact_extern (on_seed State.DETECTING_WALL 19 18 1) (after_walls [(19, 19)] 19 18 1) ∧
      (on_seed State.DETECTING_WALL 19 18 1).maze_.cell 19 19 = some 0 ∧
      ∃ w, (after_walls [(19, 19)] 19 18 1).maze_.cell 19 19 = some w ∧ 0 ≤ w ∧
        ((0 : Int) = INT_MAX → w = INT_MAX) :=
  ⟨reachable_sensing_19_18, Step.laser _ _ _ laser_front_19_18, by decide,
    maze_values_never_decrease exact_extern _ _ reachable_sensing_19_18
      (Step.laser _ _ _ laser_front_19_18) 19 19 0 (by decide)⟩

/-! ## The drive state machine, case by case -/

theorem move_mouse_forward_go {s : FloodFill} (hs : s.state_ = State.MOVING_FORWARD)
    (hd : s.distance_traveled_ < double_0_99) :
    move_mouse s = ⟨s, goal_sent s ++ [⟨1 / 2, 0⟩], at_goal s⟩ := by
  unfold move_mouse goal_sent
  rw [hs]
  simp only [hd, if_true, Twist.zero]

theorem move_mouse_forward_stop {s : FloodFill} (hs : s.state_ = State.MOVING_FORWARD)
    (hd : ¬ s.distance_traveled_ < double_0_99) :
    move_mouse s = ⟨{ s with state_ := State.DETECTING_WALL },
      goal_sent s ++ [⟨0, 0⟩] ++ [⟨0, 0⟩], at_goal s⟩ := by
  unfold move_mouse goal_sent
  rw [hs]
  simp only [hd, if_false, Twist.zero]

theorem move_mouse_turning_far {s : FloodFill} (hs : s.state_ = State.TURNING)
    (hd : |normalize_angle (s.target_yaw_ - s.current_yaw_)| > double_0_01) :
    move_mouse s = ⟨s, goal_sent s ++
      [⟨0, 1 * (if normalize_angle (s.target_yaw_ - s.current_yaw_) > 0 then 1 else -1)⟩],
      at_goal s⟩ := by
  unfold move_mouse goal_sent
  rw [hs]
  simp only [hd, if_true, Twist.zero]

theorem move_mouse_turning_near {s : FloodFill} (hs : s.state_ = State.TURNING)
    (hd : ¬ |normalize_angle (s.target_yaw_ - s.current_yaw_)| > double_0_01) :
    move_mouse s = ⟨{ s with state_ := State.REFINING_TURN }, goal_sent s ++ [⟨0, 0⟩],
      at_goal s⟩ := by
  unfold move_mouse goal_sent
  rw [hs]
  simp only [hd, if_false, Twist.zero]

theorem move_mouse_refining_far {s : FloodFill} (hs : s.state_ = State.REFINING_TURN)
    (hd : |normalize_angle (s.target_yaw_ - s.current_yaw_)| > double_0_001) :
    move_mouse s = ⟨s, goal_sent s ++
      [⟨0, double_0_2 * (if normalize_angle (s.target_yaw_ - s.current_yaw_) > 0 then 1 else -1)⟩],
      at_goal s⟩ := by
  unfold move_mouse goal_sent
  rw [hs]
  simp only [hd, if_true, Twist.zero]

theorem move_mouse_refining_near {s : FloodFill} (hs : s.state_ = State.REFINING_TURN)
    (hd : ¬ |normalize_angle (s.target_yaw_ - s.current_yaw_)| > double_0_001) :
    move_mouse s = ⟨{ s with state_ := State.MOVING_FORWARD, distance_traveled_ := 0 },
      goal_sent s ++ [⟨0, 0⟩], at_goal s⟩ := by
  unfold move_mouse goal_sent
  rw [hs]
  simp only [hd, if_false, Twist.zero]

theorem move_mouse_sensing {s : FloodFill} (hs : s.state_ = State.DETECTING_WALL) :
    move_mouse s = ⟨flood_fill s, goal_sent s ++ [⟨0, 0⟩], at_goal s⟩ := by
  unfold move_mouse goal_sent
  rw [hs]
  simp only [Twist.zero]

theorem goal_sent_zero (s : FloodFill) (c : Twist) (hc : c ∈ goal_sent s) :
    c.linear_x = 0 ∧ c.angular_z = 0 := by
  unfold goal_sent at hc
  split at hc
  · simp only [List.mem_singleton] at hc
    subst hc
    exact ⟨rfl, rfl⟩
  · exact absurd hc (List.not_mem_nil c)

theorem goal_sent_outside {s : FloodFill} (h : at_goal s = false) : goal_sent s = [] := by
  unfold goal_sent
  simp [h]

/-- The sign of an angle farther than a positive tolerance from zero. -/
theorem sign_of_far {d tol : ℚ} (htol : 0 ≤ tol) (h : |d| > tol) :
    (0 < d ∧ (if d > 0 then (1 : ℚ) else -1) = 1) ∨
      (d < 0 ∧ (if d > 0 then (1 : ℚ) else -1) = -1) := by
  rcases lt_trichotomy d 0 with hneg | hzero | hpos
  · right
    exact ⟨hneg, by rw [if_neg (not_lt.mpr hneg.le)]⟩
  · subst hzero
    simp only [abs_zero] at h
    exact absurd h (not_lt.mpr htol)
  · left
    exact ⟨hpos, by rw [if_pos hpos]⟩

theorem normalize_angle_coarse_edge : normalize_angle (0 - -double_0_01) = double_0_01 := by
  have h : (0 : ℚ) - -double_0_01 = double_0_01 := by ring
  rw [h]
  exact normalize_angle_fixed (by norm_num [double_0_01, M_PI]) (by norm_num [double_0_01, M_PI])

theorem normalize_angle_fine_edge : normalize_angle (0 - -double_0_001) = double_0_001 := by
  have h : (0 : ℚ) - -double_0_001 = double_0_001 := by ring
  rw [h]
  exact normalize_angle_fixed (by norm_num [double_0_001, M_PI])
    (by norm_num [double_0_001, M_PI])

/-- C12. A `move_mouse` tick taken in `MOVING_FORWARD`, with 0.99 the source's
double literal `double_0_99`: with `distance_traveled < 0.99` its last command
is `linear = 0.5, angular = 0` and the state stays `MOVING_FORWARD`; with
`distance_traveled >= 0.99` every command it publishes is all-zero and the
state becomes `DETECTING_WALL`. In both cases `distance_traveled` and the maze
are unchanged. -/
theorem moving_forward_tick (s : FloodFill) (hs : s.state_ = State.MOVING_FORWARD) :
    (s.distance_traveled_ < double_0_99 →
        (move_mouse s).published.getLast? = some ⟨1 / 2, 0⟩ ∧
          (move_mouse s).next.state_ = State.MOVING_FORWARD) ∧
      (¬ s.distance_traveled_ < double_0_99 →
        (∀ c ∈ (move_mouse s).published, c.linear_x = 0 ∧ c.angular_z = 0) ∧
          (move_mouse s).next.state_ = State.DETECTING_WALL) ∧
      (move_mouse s).next.distance_traveled_ = s.distance_traveled_ ∧
      (move_mouse s).next.maze_ = s.maze_ := by
  refine ⟨?_, ?_, ?_, move_mouse_maze s⟩
  · intro hd
    rw [move_mouse_forward_go hs hd]
    exact ⟨by simp, hs⟩
  · intro hd
    rw [move_mouse_forward_stop hs hd]
    refine ⟨?_, rfl⟩
    intro c hc
    simp only [List.mem_append, List.mem_singleton] at hc
    rcases hc with (hc | hc) | hc
    · exact goal_sent_zero s c hc
    · subst hc
      exact ⟨rfl, rfl⟩
    · subst hc
      exact ⟨rfl, rfl⟩
  · by_cases hd : s.distance_traveled_ < double_0_99
    · rw [move_mouse_forward_go hs hd]
    · rw [move_mouse_forward_stop hs hd]

theorem moving_forward_tick_witness :
    (on_seed State.MOVING_FORWARD 0 1 double_0_99).state_ = State.MOVING_FORWARD ∧
      ¬ (on_seed State.MOVING_FORWARD 0 1 double_0_99).distance_traveled_ < double_0_99 ∧
      (∀ c ∈ (move_mouse (on_seed State.MOVING_FORWARD 0 1 double_0_99)).published,
        c.linear_x = 0 ∧ c.angular_z = 0) ∧
      (move_mouse (on_seed State.MOVING_FORWARD 0 1 double_0_99)).next.state_
        = State.DETECTING_WALL :=
  ⟨rfl, lt_irrefl double_0_99,
    (moving_forward_tick (on_seed State.MOVING_FORWARD 0 1 double_0_99) rfl).2.1
      (lt_irrefl double_0_99)⟩

/-- C13. A `move_mouse` tick taken in `TURNING`, with
`d = normalize_angle (target_yaw - current_yaw)` and 0.01 the source's double
literal `double_0_01`: if `|d| > 0.01` the tick's command (the last one
published, and the only one outside the goal box) has `linear = 0` and
`angular = +1` when `d > 0`, `-1` when `d < 0`, one of which holds, and the
state stays `TURNING`; if `|d| <= 0.01` the command is all-zero and the state
becomes `REFINING_TURN`. -/
theorem turning_tick (s : FloodFill) (hs : s.state_ = State.TURNING) :
    (|normalize_angle (s.target_yaw_ - s.current_yaw_)| > double_0_01 →
        ((0 < normalize_angle (s.target_yaw_ - s.current_yaw_) ∧
            (move_mouse s).published = goal_sent s ++ [⟨0, 1⟩]) ∨
          (normalize_angle (s.target_yaw_ - s.current_yaw_) < 0 ∧
            (move_mouse s).published = goal_sent s ++ [⟨0, -1⟩])) ∧
          (move_mouse s).next.state_ = State.TURNING) ∧
      (|normalize_angle (s.target_yaw_ - s.current_yaw_)| ≤ double_0_01 →
        (move_mouse s).published = goal_sent s ++ [⟨0, 0⟩] ∧
          (move_mouse s).next.state_ = State.REFINING_TURN) ∧
      (at_goal s = false → goal_sent s = []) := by
  refine ⟨?_, ?_, goal_sent_outside⟩
  · intro hd
    rw [move_mouse_turning_far hs hd]
    refine ⟨?_, hs⟩
    rcases sign_of_far double_0_01_pos.le hd with ⟨hpos, hsign⟩ | ⟨hneg, hsign⟩
    · left
      exact ⟨hpos, by simp only [hsign, mul_one]⟩
    · right
      exact ⟨hneg, by simp only [hsign, one_mul]⟩
  · intro hd
    rw [move_mouse_turning_near hs (not_lt.mpr hd)]
    exact ⟨rfl, rfl⟩

theorem turning_tick_witness :
    (heading State.TURNING (-double_0_01) 0).state_ = State.TURNING ∧
      |normalize_angle ((heading State.TURNING (-double_0_01) 0).target_yaw_ -
        (heading State.TURNING (-double_0_01) 0).current_yaw_)| ≤ double_0_01 ∧
      (move_mouse (heading State.TURNING (-double_0_01) 0)).published =
        goal_sent (heading State.TURNING (-double_0_01) 0) ++ [⟨0, 0⟩] ∧
      (move_mouse (heading State.TURNING (-double_0_01) 0)).next.state_ = State.REFINING_TURN :=
  ⟨rfl,
    by
      simp only [heading, on_seed, fresh, normalize_angle_coarse_edge]
      rw [abs_of_pos double_0_01_pos],
    (turning_tick (heading State.TURNING (-double_0_01) 0) rfl).2.1
      (by
        simp only [heading, on_seed, fresh, normalize_angle_coarse_edge]
        rw [abs_of_pos double_0_01_pos])⟩

/-- C14. A `move_mouse` tick taken in `REFINING_TURN`, with
`d = normalize_angle (target_yaw - current_yaw)` and 0.001, 0.2 the source's
double literals `double_0_001`, `double_0_2`: if `|d| > 0.001` the tick's
command (the last one published, and the only one outside the goal box) has
`linear = 0` and `angular = +0.2` when `d > 0`, `-0.2` when `d < 0`, one of
which holds, the state stays `REFINING_TURN` and `distance_traveled` is
unchanged; if `|d| <= 0.001` the command is all-zero, `distance_traveled` is
reset to 0 and the state becomes `MOVING_FORWARD`. -/
theorem refining_tick (s : FloodFill) (hs : s.state_ = State.REFINING_TURN) :
    (|normalize_angle (s.target_yaw_ - s.current_yaw_)| > double_0_001 →
        ((0 < normalize_angle (s.target_yaw_ - s.current_yaw_) ∧
            (move_mouse s).published = goal_sent s ++ [⟨0, double_0_2⟩]) ∨
          (normalize_angle (s.target_yaw_ - s.current_yaw_) < 0 ∧
            (move_mouse s).published = goal_sent s ++ [⟨0, -(double_0_2)⟩])) ∧
          (move_mouse s).next.state_ = State.REFINING_TURN ∧
          (move_mouse s).next.distance_traveled_ = s.distance_traveled_) ∧
      (|normalize_angle (s.target_yaw_ - s.current_yaw_)| ≤ double_0_001 →
        (move_mouse s).published = goal_sent s ++ [⟨0, 0⟩] ∧
          (move_mouse s).next.distance_traveled_ = 0 ∧
          (move_mouse s).next.state_ = State.MOVING_FORWARD) ∧
      (at_goal s = false → goal_sent s = []) := by
  refine ⟨?_, ?_, goal_sent_outside⟩
  · intro hd
    rw [move_mouse_refining_far hs hd]
    refine ⟨?_, hs, rfl⟩
    rcases sign_of_far double_0_001_pos.le hd with ⟨hpos, hsign⟩ | ⟨hneg, hsign⟩
    · left
      exact ⟨hpos, by simp only [hsign, mul_one]⟩
    · right
      exact ⟨hneg, by simp only [hsign, mul_neg, mul_one]⟩
  · intro hd
    rw [move_mouse_refining_near hs (not_lt.mpr hd)]
    exact ⟨rfl, rfl, rfl⟩

theorem refining_tick_witness :
    (heading State.REFINING_TURN (-double_0_001) (3 / 4)).state_ = State.REFINING_TURN ∧
      |normalize_angle ((heading State.REFINING_TURN (-double_0_001) (3 / 4)).target_yaw_ -
        (heading State.REFINING_TURN (-double_0_001) (3 / 4)).current_yaw_)| ≤ double_0_001 ∧
      (move_mouse (heading State.REFINING_TURN (-double_0_001) (3 / 4))).published =
        goal_sent (heading State.REFINING_TURN (-double_0_001) (3 / 4)) ++ [⟨0, 0⟩] ∧
      (move_mouse (heading State.REFINING_TURN (-double_0_001) (3 / 4))).next.distance_traveled_
        = 0 ∧
      (move_mouse (heading State.REFINING_TURN (-double_0_001) (3 / 4))).next.state_
        = State.MOVING_FORWARD :=
  ⟨rfl,
    by
      simp only [heading, on_seed, fresh, normalize_angle_fine_edge]
      rw [abs_of_pos double_0_001_pos],
    (refining_tick (heading State.REFINING_TURN (-double_0_001) (3 / 4)) rfl).2.1
      (by
        simp only [heading, on_seed, fresh, normalize_angle_fine_edge]
        rw [abs_of_pos double_0_001_pos])⟩

/-- C20. Outside `DETECTING_WALL`, `laser_callback` returns the controller
state unchanged, whatever the range array; in `DETECTING_WALL`, when its
writes are inside the grid, it leaves the pose, `target_yaw` and
`distance_traveled` unchanged and sets the drive state to `MOVING_FORWARD`. -/
theorem laser_callback_frame (s : FloodFill) (msg : LaserScan) :
    (s.state_ ≠ State.DETECTING_WALL → laser_callback s msg = some s) ∧
      (s.state_ = State.DETECTING_WALL → ∀ t, laser_callback s msg = some t →
        t.current_x_ = s.current_x_ ∧ t.current_y_ = s.current_y_ ∧
          t.current_yaw_ = s.current_yaw_ ∧ t.target_yaw_ = s.target_yaw_ ∧
          t.distance_traveled_ = s.distance_traveled_ ∧
          t.state_ = State.MOVING_FORWARD) := by
  refine ⟨laser_callback_idle msg, ?_⟩
  intro hs t ht
  obtain ⟨x, y, m1, m2, m3, _, _, _, _, _, he⟩ := laser_callback_sensing hs ht
  subst he
  exact ⟨rfl, rfl, rfl, rfl, rfl, rfl⟩

theorem laser_callback_frame_witness :
    (on_seed State.DETECTING_WALL 5 5 1).state_ = State.DETECTING_WALL ∧
      laser_callback (on_seed State.DETECTING_WALL 5 5 1) front_close =
        some (after_walls [(5, 6)] 5 5 1) ∧
      (after_walls [(5, 6)] 5 5 1).distance_traveled_ =
        (on_seed State.DETECTING_WALL 5 5 1).distance_traveled_ ∧
      (after_walls [(5, 6)] 5 5 1).state_ = State.MOVING_FORWARD :=
  ⟨rfl, laser_front_5_5,
    ((laser_callback_frame (on_seed State.DETECTING_WALL 5 5 1) front_close).2 rfl _
      laser_front_5_5).2.2.2.2⟩

/-! ## The seeded field and paths to the goal -/

/-- Along a path to the goal the Manhattan distance drops by at most one per step. -/
theorem walk_to_goal_length (rest : List (Int × Int)) :
    ∀ c : Int × Int, in_grid c = true → walk_to_goal c rest = true →
      |19 - c.1| + |19 - c.2| ≤ (rest.length : Int) := by
  induction rest with
  | nil =>
    intro c _ hw
    simp only [walk_to_goal, beq_iff_eq, goal_x_, goal_y_] at hw
    subst hw
    simp
  | cons d rest ih =>
    intro c hc hw
    simp only [walk_to_goal, Bool.and_eq_true] at hw
    obtain ⟨⟨hadj, hd⟩, hrest⟩ := hw
    have h := ih d hd hrest
    simp only [in_grid, MAZE_SIZE_, decide_eq_true_eq, Nat.cast_ofNat] at hc hd
    simp only [adjacent, decide_eq_true_eq] at hadj
    rw [abs_of_nonneg (by omega), abs_of_nonneg (by omega)] at h ⊢
    simp only [List.length_cons, Nat.cast_add, Nat.cast_one]
    omega

/-- C15. In every maze state reached from `initialize_maze` by in-bounds
`laser_callback` updates, each cell `(x, y)` of the 20x20 grid holds either its
seeded Manhattan distance `|19 - x| + |19 - y|`, which is at most 38, or the
wall sentinel `INT_MAX = 2^31 - 1`; so every cell that does not hold the
sentinel holds a value strictly below it. -/
theorem cells_seeded_or_sentinel (m : Maze) (hm : WallsInserted m) (x y : Int)
    (hx0 : 0 ≤ x) (hx1 : x < 20) (hy0 : 0 ≤ y) (hy1 : y < 20) :
    INT_MAX = 2 ^ 31 - 1 ∧
      ∃ v, m.cell x y = some v ∧
        ((v = |19 - x| + |19 - y| ∧ v ≤ 38) ∨ v = INT_MAX) ∧
        (v ≠ INT_MAX → v < INT_MAX) := by
  refine ⟨by norm_num [INT_MAX], ?_⟩
  have hseed : seed_grid.cell x y = some (|19 - x| + |19 - y|) := by
    rw [seed_grid_cell, if_pos ⟨hx0, hx1, hy0, hy1⟩]
  have hle : |19 - x| + |19 - y| ≤ 38 := by
    rw [abs_of_nonneg (by omega), abs_of_nonneg (by omega)]
    omega
  rcases wallsInserted_seeded_or_wall hm x y with e | ⟨e, _⟩
  · refine ⟨_, e.trans hseed, Or.inl ⟨rfl, hle⟩, fun _ => ?_⟩
    unfold INT_MAX
    omega
  · exact ⟨INT_MAX, e, Or.inr rfl, fun h => absurd rfl h⟩

theorem cells_seeded_or_sentinel_witness :
    WallsInserted (after_walls [(19, 19)] 19 18 1).maze_ ∧
      ∃ v, (after_walls [(19, 19)] 19 18 1).maze_.cell 19 19 = some v ∧
        ((v = |19 - 19| + |19 - 19| ∧ v ≤ 38) ∨ v = INT_MAX) ∧
        (v ≠ INT_MAX → v < INT_MAX) :=
  ⟨WallsInserted.laser _ (after_walls [(19, 19)] 19 18 1) _
      (WallsInserted.seed (on_seed State.DETECTING_WALL 19 18 1).maze_ initialize_maze_nil)
      laser_front_19_18,
    (cells_seeded_or_sentinel _
      (WallsInserted.laser _ (after_walls [(19, 19)] 19 18 1) _
        (WallsInserted.seed (on_seed State.DETECTING_WALL 19 18 1).maze_ initialize_maze_nil)
        laser_front_19_18)
      19 19 (by decide) (by decide) (by decide) (by decide)).2⟩

/-- C16. The field `initialize_maze` stores is admissible on the wall-free
grid: for every cell `c` of the 20x20 grid and every path from `c` to
`(19, 19)` through in-grid 4-neighbours, of `k` steps, the value stored at `c`
is at most `k`. -/
theorem seed_admissible (c : Int × Int) (rest : List (Int × Int))
    (hc : in_grid c = true) (hw : walk_to_goal c rest = true) :
    ∃ m v, initialize_maze [] = some m ∧ m.cell c.1 c.2 = some v ∧
      v ≤ (rest.length : Int) := by
  refine ⟨seed_grid, |19 - c.1| + |19 - c.2|, initialize_maze_nil, ?_,
    walk_to_goal_length rest c hc hw⟩
  simp only [in_grid, MAZE_SIZE_, decide_eq_true_eq, Nat.cast_ofNat] at hc
  rw [seed_grid_cell, if_pos hc]

theorem seed_admissible_witness :
    in_grid (18, 18) = true ∧
      walk_to_goal (18, 18) [(18, 17), (18, 18), (19, 18), (19, 19)] = true ∧
      ∃ m v, initialize_maze [] = some m ∧ m.cell 18 18 = some v ∧ v ≤ 4 :=
  ⟨by decide, by decide,
    seed_admissible (18, 18) [(18, 17), (18, 18), (19, 18), (19, 19)]
      (by decide) (by decide)⟩

/-! ## The wall update, cell by cell -/

/-- A write to an existing cell succeeds. -/
theorem Maze.write_some {m : Maze} {x y : Int} (v : Int) (h : (m.cell x y).isSome = true) :
    ∃ t, m.write x y v = some t := by
  unfold Maze.cell at h
  unfold Maze.write
  split at h
  · rename_i hxy
    rw [if_pos hxy]
    split at h
    · rename_i row hrow
      have hy : y.toNat < row.length := by
        by_contra hc
        rw [List.getElem?_eq_none (by omega)] at h
        exact absurd h (by simp)
      rw [if_pos hy]
      exact ⟨_, rfl⟩
    · exact absurd h (by simp)
  · exact absurd h (by simp)

/-- One conditional wall write whose reading exists and whose target cell
exists: it succeeds, and sets the target to the sentinel exactly when the
reading is below the threshold. -/
theorem mark_if_close_spec {m : Maze} {rs : List ℚ} {i : Nat} {x y : Int} {r : ℚ}
    (hr : rs[i]? = some r) (hc : (m.cell x y).isSome = true) :
    ∃ t, mark_if_close m rs i x y = some t ∧
      ∀ a b, t.cell a b = if a = x ∧ b = y ∧ r < 3 / 4 then some INT_MAX else m.cell a b := by
  unfold mark_if_close
  simp only [hr]
  by_cases hlt : r < 3 / 4
  · obtain ⟨t, ht⟩ := Maze.write_some INT_MAX hc
    refine ⟨t, by rw [if_pos hlt]; exact ht, ?_⟩
    intro a b
    rw [Maze.cell_write ht a b]
    by_cases hab : a = x ∧ b = y
    · rw [if_pos hab, if_pos ⟨hab.1, hab.2, hlt⟩]
    · rw [if_neg hab, if_neg (fun h => hab ⟨h.1, h.2.1⟩)]
  · refine ⟨m, by rw [if_neg hlt], ?_⟩
    intro a b
    rw [if_neg (fun h => hlt h.2.2)]

/-- The reading at index 2 is not an input of `laser_callback`. -/
theorem laser_callback_skips_index_two (s : FloodFill) (r0 r1 r2 q r3 : ℚ) (rest : List ℚ) :
    laser_callback s ⟨r0 :: r1 :: q :: r3 :: rest⟩ =
      laser_callback s ⟨r0 :: r1 :: r2 :: r3 :: rest⟩ := by
  unfold laser_callback mark_if_close
  simp

theorem laser_callback_total {s : FloodFill} {msg : LaserScan} {x y : Int} {r0 r1 r2 r3 : ℚ}
    {rest : List ℚ} (hs : s.state_ = State.DETECTING_WALL)
    (hx : toInt s.current_x_ = some x) (hy : toInt s.current_y_ = some y)
    (hr : msg.ranges = r0 :: r1 :: r2 :: r3 :: rest)
    (hf : (s.maze_.cell x (y + 1)).isSome = true)
    (hl : (s.maze_.cell (x - 1) y).isSome = true)
    (hrt : (s.maze_.cell (x + 1) y).isSome = true) :
    ∃ t, laser_callback s msg = some t ∧
      ∀ a b, t.maze_.cell a b =
        if (a = x ∧ b = y + 1 ∧ r0 < 3 / 4) ∨ (a = x - 1 ∧ b = y ∧ r1 < 3 / 4) ∨
            (a = x + 1 ∧ b = y ∧ r3 < 3 / 4) then some INT_MAX
        else s.maze_.cell a b := by
  have e0 : msg.ranges[0]? = some r0 := by rw [hr]; simp
  have e1 : msg.ranges[1]? = some r1 := by rw [hr]; simp
  have e3 : msg.ranges[3]? = some r3 := by rw [hr]; simp
  obtain ⟨m1, h1, c1⟩ := mark_if_close_spec (m := s.maze_) e0 hf
  have hl1 : (m1.cell (x - 1) y).isSome = true := by
    rw [c1]
    split
    · rfl
    · exact hl
  obtain ⟨m2, h2, c2⟩ := mark_if_close_spec (m := m1) e1 hl1
  have hr2 : (m2.cell (x + 1) y).isSome = true := by
    rw [c2, c1]
    split
    · rfl
    · split
      · rfl
      · exact hrt
  obtain ⟨m3, h3, c3⟩ := mark_if_close_spec (m := m2) e3 hr2
  refine ⟨{ s with maze_ := m3, state_ := State.MOVING_FORWARD }, ?_, ?_⟩
  · unfold laser_callback
    rw [if_pos hs]
    simp only [hx, hy, h1, h2, h3]
  · intro a b
    simp only
    rw [c3, c2, c1]
    by_cases k3 : a = x + 1 ∧ b = y ∧ r3 < 3 / 4
    · rw [if_pos k3, if_pos (Or.inr (Or.inr k3))]
    · rw [if_neg k3]
      by_cases k2 : a = x - 1 ∧ b = y ∧ r1 < 3 / 4
      · rw [if_pos k2, if_pos (Or.inr (Or.inl k2))]
      · rw [if_neg k2]
        by_cases k1 : a = x ∧ b = y + 1 ∧ r0 < 3 / 4
        · rw [if_pos k1, if_pos (Or.inl k1)]
        · rw [if_neg k1, if_neg]
          rintro (h | h | h)
          · exact k1 h
          · exact k2 h
          · exact k3 h

/-- C17. In `DETECTING_WALL` at cell `(x, y)` whose front, left and right
neighbours `(x, y+1)`, `(x-1, y)`, `(x+1, y)` are cells of the grid, for every
range array with at least four entries, `laser_callback` returns the grid in
which `(x, y+1)` is set to the sentinel iff `ranges[0] < 0.75`, `(x-1, y)` iff
`ranges[1] < 0.75`, `(x+1, y)` iff `ranges[3] < 0.75`, and every other cell,
the robot's own included, keeps its value; replacing `ranges[2]` by any other
value gives the same result. -/
theorem laser_callback_grid (s : FloodFill) (msg : LaserScan) (x y : Int) (r0 r1 r2 r3 : ℚ)
    (rest : List ℚ) (hs : s.state_ = State.DETECTING_WALL)
    (hx : toInt s.current_x_ = some x) (hy : toInt s.current_y_ = some y)
    (hr : msg.ranges = r0 :: r1 :: r2 :: r3 :: rest)
    (hf : (s.maze_.cell x (y + 1)).isSome = true)
    (hl : (s.maze_.cell (x - 1) y).isSome = true)
    (hrt : (s.maze_.cell (x + 1) y).isSome = true) :
    ∃ t, laser_callback s msg = some t ∧
      (∀ a b, t.maze_.cell a b =
        if (a = x ∧ b = y + 1 ∧ r0 < 3 / 4) ∨ (a = x - 1 ∧ b = y ∧ r1 < 3 / 4) ∨
            (a = x + 1 ∧ b = y ∧ r3 < 3 / 4) then some INT_MAX
        else s.maze_.cell a b) ∧
      t.maze_.cell x y = s.maze_.cell x y ∧
      ∀ q, laser_callback s ⟨r0 :: r1 :: q :: r3 :: rest⟩ = some t := by
  obtain ⟨t, ht, hcell⟩ := laser_callback_total hs hx hy hr hf hl hrt
  refine ⟨t, ht, hcell, ?_, ?_⟩
  · rw [hcell, if_neg]
    rintro (h | h | h) <;> omega
  · intro q
    rw [laser_callback_skips_index_two s r0 r1 r2 q r3 rest, ← ht]
    cases msg
    simp only at hr
    rw [hr]

theorem laser_callback_grid_witness :
    ∃ t, laser_callback (on_seed State.DETECTING_WALL 5 5 1) front_close = some t ∧
      t.maze_.cell 5 (5 + 1) = some INT_MAX ∧ t.maze_.cell (5 - 1) 5 = some 29 ∧
      laser_callback (on_seed State.DETECTING_WALL 5 5 1) ⟨[1 / 2, 1, 0, 1]⟩ = some t := by
  obtain ⟨t, ht, hcell, _, hq⟩ :=
    laser_callback_grid (on_seed State.DETECTING_WALL 5 5 1) front_close 5 5 (1 / 2) 1 1 1 []
      rfl (by decide) (by decide) rfl (by decide) (by decide) (by decide)
  refine ⟨t, ht, ?_, ?_, hq 0⟩
  · rw [hcell, if_pos (Or.inl ⟨rfl, rfl, by norm_num⟩)]
  · rw [hcell, if_neg]
    · decide
    · rintro (h | h | h)
      · omega
      · exact absurd h.2.2 (by norm_num)
      · omega

/-! ## The target heading -/

theorem move_mouse_target_yaw (s : FloodFill) :
    (move_mouse s).next.target_yaw_ = s.target_yaw_ := by
  unfold move_mouse
  cases hs : s.state_ with
  | MOVING_FORWARD => simp only; split <;> rfl
  | DETECTING_WALL => rfl
  | TURNING => simp only; split <;> rfl
  | REFINING_TURN => simp only; split <;> rfl

theorem laser_callback_target_yaw {s t : FloodFill} {msg : LaserScan}
    (h : laser_callback s msg = some t) : t.target_yaw_ = s.target_yaw_ := by
  by_cases hs : s.state_ = State.DETECTING_WALL
  · obtain ⟨x, y, m1, m2, m3, _, _, _, _, _, he⟩ := laser_callback_sensing hs h
    subst he
    rfl
  · rw [laser_callback_idle msg hs] at h
    simp only [Option.some.injEq] at h
    subst h
    rfl

/-- The target heading is never assigned after construction. -/
theorem reachable_target_yaw {E : Extern} {s : FloodFill} (h : Reachable E s) :
    s.target_yaw_ = 0 := by
  induction h with
  | init b yaw x y s hc =>
    unfold construct at hc
    rw [initialize_maze_nil] at hc
    simp only [Option.some.injEq] at hc
    subst hc
    rfl
  | laser s t msg _ hl ih => rw [laser_callback_target_yaw hl, ih]
  | odom s msg _ ih => exact ih
  | tick s _ _ ih => rw [move_mouse_target_yaw, ih]

/-- On the seeded grid, west of the last column, the `+x` neighbour holds the
minimum over the in-grid neighbours. -/
theorem seed_grid_min_east (x y : Int) (hx0 : 0 ≤ x) (hx1 : x < 19) (hy0 : 0 ≤ y)
    (hy1 : y < 20) : points_to_min seed_grid x y 0 = true := by
  have hfin : ∀ a : Fin 19, ∀ b : Fin 20,
      min_toward seed_grid ((a : Nat) : Int) ((b : Nat) : Int) 1 0 = true := by decide
  have h := hfin ⟨x.toNat, by omega⟩ ⟨y.toNat, by omega⟩
  simp only [Int.toNat_of_nonneg hx0, Int.toNat_of_nonneg hy0] at h
  simp only [points_to_min, yaw_offset, if_true]
  exact h

/-- A sensing state one cell north of the constructor's pose is reachable:
an odometry sample one unit further, then the tick that ends the cell. -/
theorem reachable_sensing (x y : ℚ)
    (hg : at_goal (on_seed State.MOVING_FORWARD x (y + 1) 1) = false) :
    Reachable exact_extern (on_seed State.DETECTING_WALL x (y + 1) 1) := by
  have h0 : Reachable exact_extern (fresh x y) :=
    Reachable.init false 0 x y _ (by simp [construct, initialize_maze_nil, fresh])
  have h1 := Reachable.odom (fresh x y) (odom_at x (y + 1)) h0
  have e1 : odom_callback exact_extern (fresh x y) (odom_at x (y + 1)) =
      on_seed State.MOVING_FORWARD x (y + 1) 1 := by
    have hs : Rat.sqrt 1 = 1 := by decide
    simp [odom_callback, fresh, on_seed, odom_at, exact_extern, hs]
  rw [e1] at h1
  have hshut : (move_mouse (on_seed State.MOVING_FORWARD x (y + 1) 1)).shutdown = false := by
    rw [move_mouse_forward_stop rfl (by norm_num [on_seed, double_0_99])]
    exact hg
  have h2 := Reachable.tick _ h1 hshut
  rw [move_mouse_forward_stop rfl (by norm_num [on_seed, double_0_99])] at h2
  exact h2

theorem reachable_sensing_19_5 : Reachable exact_extern (on_seed State.DETECTING_WALL 19 5 1) := by
  have h := reachable_sensing 19 4
    (by simp [at_goal, on_seed, fresh, goal_x_, goal_y_]; norm_num)
  have e : (4 : ℚ) + 1 = 5 := by norm_num
  rw [e] at h
  exact h

theorem reachable_sensing_5_5 : Reachable exact_extern (on_seed State.DETECTING_WALL 5 5 1) := by
  have h := reachable_sensing 5 4
    (by simp [at_goal, on_seed, fresh, goal_x_, goal_y_]; norm_num)
  have e : (4 : ℚ) + 1 = 5 := by norm_num
  rw [e] at h
  exact h

theorem reachable_sensing_0_1 : Reachable exact_extern (on_seed State.DETECTING_WALL 0 1 1) := by
  have h := reachable_sensing 0 0
    (by simp [at_goal, on_seed, fresh, goal_x_, goal_y_]; norm_num)
  have e : (0 : ℚ) + 1 = 1 := by norm_num
  rw [e] at h
  exact h

/-- C11, as stated, fails. In the reachable sensing state at cell `(19, 5)` the
tick moves to `TURNING` with `target_yaw` still 0, the `+x` direction, which
points at `(20, 5)`, outside the grid, while the in-grid neighbour `(19, 6)`
holds the minimum 13. -/
theorem sensing_tick_target_off_grid :
    Reachable exact_extern (on_seed State.DETECTING_WALL 19 5 1) ∧
      toInt (on_seed State.DETECTING_WALL 19 5 1).current_x_ = some 19 ∧
      toInt (on_seed State.DETECTING_WALL 19 5 1).current_y_ = some 5 ∧
      (move_mouse (on_seed State.DETECTING_WALL 19 5 1)).next.state_ = State.TURNING ∧
      (move_mouse (on_seed State.DETECTING_WALL 19 5 1)).next.target_yaw_ = 0 ∧
      yaw_offset 0 = some (1, 0) ∧
      (move_mouse (on_seed State.DETECTING_WALL 19 5 1)).next.maze_.cell (19 + 1) 5 = none ∧
      (move_mouse (on_seed State.DETECTING_WALL 19 5 1)).next.maze_.cell 19 (5 + 1) = some 13 ∧
      points_to_min (move_mouse (on_seed State.DETECTING_WALL 19 5 1)).next.maze_ 19 5
        (move_mouse (on_seed State.DETECTING_WALL 19 5 1)).next.target_yaw_ = false := by
  have hm : move_mouse (on_seed State.DETECTING_WALL 19 5 1) =
      ⟨flood_fill (on_seed State.DETECTING_WALL 19 5 1),
        goal_sent (on_seed State.DETECTING_WALL 19 5 1) ++ [⟨0, 0⟩],
        at_goal (on_seed State.DETECTING_WALL 19 5 1)⟩ := move_mouse_sensing rfl
  rw [hm]
  refine ⟨reachable_sensing_19_5, by decide, by decide, rfl, rfl, by simp [yaw_offset],
    by decide, by decide, ?_⟩
  have hy : yaw_offset 0 = some (1, 0) := by simp [yaw_offset]
  simp only [points_to_min, flood_fill, on_seed, fresh, hy]
  decide

/-- C11, amended. From every reachable state in `DETECTING_WALL` the tick moves
to `TURNING` and leaves `target_yaw` as it was, which is 0 (the constructor's
value, never assigned again): a cardinal yaw, pointing `+x`. On the grid
`initialize_maze` built, for every current cell `(x, y)` with `0 <= x < 19` and
`0 <= y < 20`, that direction points to an in-grid neighbour whose value is the
minimum over the cell's in-grid neighbours. -/
theorem sensing_tick_target (E : Extern) (s : FloodFill) (hr : Reachable E s)
    (hs : s.state_ = State.DETECTING_WALL) :
    (move_mouse s).next.state_ = State.TURNING ∧
      (move_mouse s).next.target_yaw_ = s.target_yaw_ ∧
      (move_mouse s).next.target_yaw_ = 0 ∧
      (initialize_maze [] = some s.maze_ →
        ∀ x y : Int, 0 ≤ x → x < 19 → 0 ≤ y → y < 20 →
          points_to_min (move_mouse s).next.maze_ x y (move_mouse s).next.target_yaw_ = true) := by
  have ht : (move_mouse s).next.target_yaw_ = 0 := by
    rw [move_mouse_target_yaw, reachable_target_yaw hr]
  refine ⟨?_, move_mouse_target_yaw s, ht, ?_⟩
  · rw [move_mouse_sensing hs]
    rfl
  · intro hm x y hx0 hx1 hy0 hy1
    rw [initialize_maze_nil] at hm
    simp only [Option.some.injEq] at hm
    rw [ht, move_mouse_maze, ← hm]
    exact seed_grid_min_east x y hx0 hx1 hy0 hy1

theorem sensing_tick_target_witness :
    Reachable exact_extern (on_seed State.DETECTING_WALL 5 5 1) ∧
      (move_mouse (on_seed State.DETECTING_WALL 5 5 1)).next.state_ = State.TURNING ∧
      (move_mouse (on_seed State.DETECTING_WALL 5 5 1)).next.target_yaw_ = 0 ∧
      points_to_min (move_mouse (on_seed State.DETECTING_WALL 5 5 1)).next.maze_ 5 5
        (move_mouse (on_seed State.DETECTING_WALL 5 5 1)).next.target_yaw_ = true :=
  ⟨reachable_sensing_5_5,
    (sensing_tick_target exact_extern _ reachable_sensing_5_5 rfl).1,
    (sensing_tick_target exact_extern _ reachable_sensing_5_5 rfl).2.2.1,
    (sensing_tick_target exact_extern _ reachable_sensing_5_5 rfl).2.2.2 initialize_maze_nil
      5 5 (by decide) (by decide) (by decide) (by decide)⟩

/-- C18, evaluated on the code. In the reachable sensing state at cell `(5, 5)`
with `distance_traveled = 1`, a scan takes the drive state from
`DETECTING_WALL` to `MOVING_FORWARD` and leaves `distance_traveled` at 1, not
0; the next tick then returns to `DETECTING_WALL` at once. -/
theorem laser_callback_keeps_distance :
    Reachable exact_extern (on_seed State.DETECTING_WALL 5 5 1) ∧
      (on_seed State.DETECTING_WALL 5 5 1).state_ = State.DETECTING_WALL ∧
      laser_callback (on_seed State.DETECTING_WALL 5 5 1) front_close =
        some (after_walls [(5, 6)] 5 5 1) ∧
      (after_walls [(5, 6)] 5 5 1).state_ = State.MOVING_FORWARD ∧
      (after_walls [(5, 6)] 5 5 1).distance_traveled_ = 1 ∧
      (after_walls [(5, 6)] 5 5 1).distance_traveled_ ≠ 0 ∧
      (move_mouse (after_walls [(5, 6)] 5 5 1)).next.state_ = State.DETECTING_WALL := by
  refine ⟨reachable_sensing_5_5, rfl, laser_front_5_5, rfl, rfl, ?_, ?_⟩
  · norm_num [after_walls, on_seed]
  · rw [move_mouse_forward_stop rfl (by norm_num [after_walls, on_seed, double_0_99])]

/-- C19, evaluated on the code. In the reachable sensing state at cell `(0, 1)`,
inside the grid, a scan of four readings with the left one below the threshold
makes `laser_callback` write `maze_[-1][1]`, an index outside the grid: the
write, and with it the callback, has no defined result. -/
theorem laser_callback_writes_off_grid :
    Reachable exact_extern (on_seed State.DETECTING_WALL 0 1 1) ∧
      (on_seed State.DETECTING_WALL 0 1 1).state_ = State.DETECTING_WALL ∧
      toInt (on_seed State.DETECTING_WALL 0 1 1).current_x_ = some 0 ∧
      toInt (on_seed State.DETECTING_WALL 0 1 1).current_y_ = some 1 ∧
      in_grid (0, 1) = true ∧
      left_close.ranges.length = 4 ∧
      mark_if_close (on_seed State.DETECTING_WALL 0 1 1).maze_ left_close.ranges 1 (0 - 1) 1
        = none ∧
      laser_callback (on_seed State.DETECTING_WALL 0 1 1) left_close = none := by
  have hx : toInt (0 : ℚ) = some 0 := by decide
  have hy : toInt (1 : ℚ) = some 1 := by decide
  have hw : Maze.write seed_grid (-1) 1 INT_MAX = none := by decide
  refine ⟨reachable_sensing_0_1, rfl, hx, hy, by decide, rfl, ?_, ?_⟩
  · simp [mark_if_close, left_close, on_seed, fresh]
    norm_num [hw]
  · simp [laser_callback, on_seed, fresh, left_close, mark_if_close, hx, hy]
    norm_num [hw]

end Micromouse
